import Mathlib

/-!
# Verification of the thor HTTP client core (`thor/http/client.py`)

This development shallowly embeds the connection pool (`HttpClient`) and the
per-request exchange state machine (`HttpClientExchange`) of the thor
asynchronous HTTP/1.1 client, and proves/refutes the frozen specification
claims about them.

Conventions:
* Pure helpers mirror Python 2 string semantics (`str.split`, `str.rsplit`,
  `int(...)`, integer division `/`).
* The exchange's mutable object state becomes an explicit record `St`;
  each Python method becomes a function `St → St`.  Exceptions escaping a
  method (e.g. `AttributeError` from `None.delete()`) are recorded in the
  `exc` field, which short-circuits all subsequent methods.
* Event emission (`self.emit(...)`) appends to a `trace` list; alongside the
  event we record whether a read-timeout timer was armed at emission time.
* Calls into external collaborators (the event loop's `schedule`, TCP
  `connect`/`close`, the pool) are logged in an `effects` list.
* The HTTP message parser (`thor/http/common.py`) is not among the given
  sources; where its behaviour decides a claim it is modelled from the spec
  (definitions so marked with `Modelled from the spec:`).
-/

namespace Thor

/-! ## Python 2 string helpers -/

/-- Python whitespace for `str.split(None)` / `str.strip()`. -/
def pyIsSpace (c : Char) : Bool :=
  c == ' ' || c == '\t' || c == '\n' || c == '\r' || c == '\x0b' || c == '\x0c'

/-- Drop leading Python whitespace from a character list. -/
def dropWs : List Char → List Char
  | [] => []
  | c :: cs => if pyIsSpace c then dropWs cs else c :: cs

/-- Take the maximal leading run of non-whitespace characters. -/
def takeTok : List Char → List Char
  | [] => []
  | c :: cs => if pyIsSpace c then [] else c :: takeTok cs

/-- Drop the maximal leading run of non-whitespace characters. -/
def dropTok : List Char → List Char
  | [] => []
  | c :: cs => if pyIsSpace c then c :: cs else dropTok cs

/-- Python `s.split(None, 1)`: split on runs of whitespace, at most once,
ignoring leading whitespace; returns `[]`, `[tok]`, or `[tok, rest]`. -/
def pySplitWs1 (s : String) : List String :=
  let cs := dropWs s.data
  match cs with
  | [] => []
  | _ =>
    let tok := takeTok cs
    let rest := dropWs (dropTok cs)
    match rest with
    | [] => [String.mk tok]
    | _ => [String.mk tok, String.mk rest]

/-- Python `s.rstrip()`: drop trailing whitespace. -/
def pyRstrip (s : String) : String :=
  String.mk (dropWs s.data.reverse).reverse

/-- Python `s.rsplit(sep, 1)` for a single-character separator: split at the
last occurrence, if any. -/
def pyRsplit1 (sep : Char) (s : String) : List String :=
  match (dropWs [] , s.data.reverse.span (fun c => c != sep)) with
  | (_, (afterRev, restRev)) =>
    match restRev with
    | [] => [s]                      -- separator absent
    | _ :: beforeRev => [String.mk beforeRev.reverse, String.mk afterRev.reverse]

/-- Python `s.split(sep, 1)` for a single-character separator: split at the
first occurrence, if any. -/
def pySplit1 (sep : Char) (s : String) : List String :=
  match s.data.span (fun c => c != sep) with
  | (before, rest) =>
    match rest with
    | [] => [s]                      -- separator absent
    | _ :: after => [String.mk before, String.mk after]

/-- Whether all characters in the list are decimal digits. -/
def allDigits : List Char → Bool
  | [] => true
  | c :: cs => c.isDigit && allDigits cs

/-- Digit-list to natural number (most significant first). -/
def digitsToNat : List Char → Nat → Nat
  | [], acc => acc
  | c :: cs, acc => digitsToNat cs (acc * 10 + (c.toNat - '0'.toNat))

/-- Python `s.lower()` (ASCII range, which covers the header names and URL
schemes involved). -/
def pyLower (s : String) : String := String.mk (s.data.map Char.toLower)

/-- Python `c in s` for a single character. -/
def strContains (s : String) (c : Char) : Bool := s.data.any (fun x => x == c)

/-- Python 2 `int(s)` on a string: optional surrounding whitespace, optional
sign, then one or more decimal digits; `none` models `ValueError`. -/
def pyInt (s : String) : Option Int :=
  let cs := dropWs s.data
  let cs := (dropWs cs.reverse).reverse
  match cs with
  | [] => none
  | '+' :: ds =>
    if ds ≠ [] && allDigits ds then some (Int.ofNat (digitsToNat ds 0)) else none
  | '-' :: ds =>
    if ds ≠ [] && allDigits ds then some (-(Int.ofNat (digitsToNat ds 0))) else none
  | ds =>
    if allDigits ds then some (Int.ofNat (digitsToNat ds 0)) else none

/-! ## Basic vocabulary -/

/-- Header lists as the Python code passes them: `(field-name, field-value)`. -/
abbrev Hdrs := List (String × String)

/-- Client-visible error variants (`thor/http/error.py`), carrying their
`detail` argument. -/
inductive Err where
  | urlError (detail : String)
  | connectError (detail : String)
  | readTimeoutError (detail : String)
  | httpVersionError (detail : String)
  | chunkError (detail : String)
  deriving DecidableEq, Repr

/-- Python exceptions that can escape an exchange method. -/
inductive PyExc where
  | attributeError   -- `None.delete()` in `_clear_read_timeout`
  | valueError       -- raised by `input_start` on a bad top line
  | typeError        -- zero-argument `self.input_end()` in `_conn_closed`
  deriving DecidableEq, Repr

/-- Events an exchange emits to application code. -/
inductive Event where
  | responseStart (code phrase : String) (hdrs : Hdrs)
  | responseBody (chunk : String)
  | responseDone (trailers : Hdrs)
  | error (e : Err)
  deriving DecidableEq, Repr

/-- Response-body framing observed by the client
(constants from `thor/http/common.py`, named in the spec's data model). -/
inductive Delimit where
  | none_
  | counted
  | chunked
  | close
  | nobody
  deriving DecidableEq, Repr

/-- Parser input states the exchange consults (spec §3: `input_state`). -/
inductive InState where
  | waiting
  | body
  | done
  | errorSt
  deriving DecidableEq, Repr

/-- Calls into external collaborators (loop, TCP, pool), logged in order. -/
inductive Effect where
  | attach (host : String) (port : Int)
  | scheduleRetry (delaySec : Nat)
  | connClose
  | release (host : String) (port : Int)
  | outputStart (line : String) (hdrs : Hdrs) (delim : Delimit) (bodyLen : Option Int)
  deriving DecidableEq, Repr

/-- The TCP connection object, as the exchange sees it. -/
structure Conn where
  host : String
  port : Int
  connected : Bool
  deriving DecidableEq, Repr

/-- Client configuration (`HttpClient` class attributes). -/
structure Config where
  readTimeout : Option Nat := none
  retryLimit : Nat := 2
  retryDelay : Nat := 500       -- in ms (class comment)
  idleTimeout : Nat := 60
  deriving DecidableEq, Repr

/-- `idempotent_methods`.  Modelled from the spec: the list
`GET, HEAD, PUT, DELETE, OPTIONS, TRACE` (§6); the constant lives in
`thor/http/common.py`, which is not among the given sources. -/
def idempotentMethods : List String :=
  ["GET", "HEAD", "PUT", "DELETE", "OPTIONS", "TRACE"]

/-- `no_body_status`.  Modelled from the spec: status codes `1xx`, `204`,
`304` never carry a body (§6); the constant lives in
`thor/http/common.py`, which is not among the given sources. -/
def noBodyStatus (code : String) : Bool :=
  (code.length == 3 && code.data.headD ' ' == '1') || code == "204" || code == "304"

/-- `hop_by_hop_hdrs`.  Modelled from the spec (§4.3.1): the constant lives
in `thor/http/common.py`, which is not among the given sources. -/
def hopByHopHdrs : List String :=
  ["connection", "keep-alive", "proxy-authenticate", "proxy-authorization",
   "te", "trailers", "transfer-encoding", "upgrade"]

/-- `req_rm_hdrs = hop_by_hop_hdrs + ['host']` (`client.py` line 51). -/
def reqRmHdrs : List String := hopByHopHdrs ++ ["host"]

/-- `get_header(hdr_tuples, name)`.  Modelled from the spec: returns the
values of the headers whose field-name matches `name` case-insensitively;
the function lives in `thor/http/common.py`, which is not among the given
sources. -/
def getHeader (hdrs : Hdrs) (name : String) : List String :=
  (hdrs.filter (fun h => pyLower h.1 == name)).map (·.2)

/-! ## Exchange state

One record per `HttpClientExchange` instance, plus the parser-side fields
the exchange consults (`_input_state`, `_input_delimit`, `_input_buffer`,
`inspecting`, exposed by `HttpMessageHandler` per spec §6). -/

/-- State of one `HttpClientExchange` (plus its message-handler fields).
`trace` pairs each emitted event with whether a read-timeout timer was
armed at the moment of emission; `effects` logs external calls;
`readTimeoutEv` is `none` before the first arming (Python `None`),
`some true` while armed, `some false` once deleted or fired;
`exc` records a Python exception escaping the current call. -/
structure St where
  cfg : Config
  method : String := ""
  resVersion : Option String := none
  host : String := ""
  port : Int := 80
  tcpConn : Option Conn := none
  connReusable : Bool := false
  retries : Nat := 0
  readTimeoutEv : Option Bool := none
  inputState : InState := InState.waiting
  inputDelimit : Delimit := Delimit.none_
  bodyLeft : Nat := 0
  inputBuffer : String := ""
  inspecting : Bool := false
  pendingRetry : Bool := false
  trace : List (Event × Bool) := []
  effects : List Effect := []
  exc : Option PyExc := none
  deriving DecidableEq, Repr

/-- Whether a read-timeout timer is currently armed. -/
def St.armed (s : St) : Bool := s.readTimeoutEv == some true

/-- The events of the trace, without the armed-at-emission flags. -/
def St.events (s : St) : List Event := s.trace.map Prod.fst

/-- `self.emit(ev)`: append the event to the trace, recording whether a
read-timeout timer was armed at emission time. -/
def emitEv (e : Event) (s : St) : St :=
  { s with trace := s.trace ++ [(e, s.armed)] }

/-- `_set_read_timeout(kind)`: if `read_timeout` is configured, schedule the
timer and store the handle. -/
def setReadTimeout (s : St) : St :=
  match s.cfg.readTimeout with
  | none => s
  | some _ => { s with readTimeoutEv := some true }

/-- `_clear_read_timeout()`: if `read_timeout` is configured, call
`self._read_timeout_ev.delete()`.  When the handle is still `None`
(no timer was ever armed) this raises `AttributeError`. -/
def clearReadTimeout (s : St) : St :=
  if s.exc.isSome then s else
  match s.cfg.readTimeout with
  | none => s
  | some _ =>
    match s.readTimeoutEv with
    | none => { s with exc := some PyExc.attributeError }
    | some _ => { s with readTimeoutEv := some false }

/-- `input_error(err)` (`client.py` 316–325).  If the parser is inspecting,
only mark the connection non-reusable; otherwise clear the timer and close
the connection.  In both cases emit `error`.  The `inputState` update in
the non-inspecting branch reflects the handler's state machine reaching its
terminal `ERROR` state (spec §4.3.5); the handler itself is not among the
given sources. -/
def inputError (err : Err) (s : St) : St :=
  if s.exc.isSome then s else
  if s.inspecting then
    emitEv (Event.error err) { s with connReusable := false }
  else
    let s := clearReadTimeout s
    if s.exc.isSome then s else
    let s :=
      match s.tcpConn with
      | some _ => { s with tcpConn := none, effects := s.effects ++ [Effect.connClose] }
      | none => s
    emitEv (Event.error err) { s with inputState := InState.errorSt }

/-- `input_end(trailers)` (`client.py` 305–314): clear the timer, release the
connection to the pool if it is still connected and reusable (else close it),
drop the reference, then emit `response_done`.  The `inputState` update
reflects the handler reaching `DONE` (spec §4.3.5). -/
def inputEnd (trailers : Hdrs) (s : St) : St :=
  if s.exc.isSome then s else
  let s := clearReadTimeout s
  if s.exc.isSome then s else
  let s :=
    match s.tcpConn with
    | some c =>
      if c.connected && s.connReusable then
        { s with tcpConn := none, effects := s.effects ++ [Effect.release c.host c.port] }
      else
        { s with tcpConn := none, effects := s.effects ++ [Effect.connClose] }
    | none => s
  emitEv (Event.responseDone trailers) { s with inputState := InState.done }

/-- `input_body(chunk)` (`client.py` 299–303): clear the timer, emit
`response_body`, re-arm the timer with kind `body`. -/
def inputBody (chunk : String) (s : St) : St :=
  if s.exc.isSome then s else
  let s := clearReadTimeout s
  if s.exc.isSome then s else
  setReadTimeout (emitEv (Event.responseBody chunk) s)

/-- The `raise ValueError` at the end of `input_start`'s error paths. -/
def raiseVE (s : St) : St := { s with exc := some PyExc.valueError }

/-- `input_start(top_line, hdr_tuples, conn_tokens, transfer_codes,
content_length)` (`client.py` 263–297): clear the timer, parse the top line
(raising `ValueError` after emitting `HttpVersionError` on failure), decide
`conn_reusable` from the `Connection` tokens and the response version,
re-arm the timer, emit `response_start`, and return whether the response
allows a body. -/
def inputStart (topLine : String) (hdrTuples : Hdrs) (connTokens : List String)
    (s : St) : St × Bool :=
  if s.exc.isSome then (s, false) else
  let s := clearReadTimeout s
  if s.exc.isSome then (s, false) else
  match pySplitWs1 topLine with
  | [protoVersion, statusTxt] =>
    (match pyRsplit1 '/' protoVersion with
     | [proto, ver] =>
       let s := { s with resVersion := some ver }
       if proto != "HTTP" || (ver != "1.0" && ver != "1.1") then
         (raiseVE (inputError (Err.httpVersionError protoVersion) s), false)
       else
         let (resCode, resPhrase) :=
           match pySplitWs1 statusTxt with
           | [c, p] => (c, p)
           | _ => (pyRstrip statusTxt, "")
         let s :=
           if !connTokens.contains "close" &&
              ((ver == "1.0" && connTokens.contains "keep-alive") || ver == "1.1") then
             { s with connReusable := true }
           else s
         let s := setReadTimeout s
         let s := emitEv (Event.responseStart resCode resPhrase hdrTuples) s
         let allowsBody := !noBodyStatus resCode && s.method != "HEAD"
         (s, allowsBody)
     | _ =>
       (raiseVE (inputError (Err.httpVersionError topLine) s), false))
  | _ =>
    (raiseVE (inputError (Err.httpVersionError topLine) s), false)

/-- Body-framing decision for a response.  Modelled from the spec: a response
that allows no body has delimiter `NOBODY`; `chunked` transfer-coding gives
`CHUNKED`; a `Content-Length` gives `COUNTED`; otherwise `CLOSE`
("Response without `Content-Length` and without chunked ⇒ delimiter
`CLOSE`", §8).  The decision lives in `thor/http/common.py`, which is not
among the given sources. -/
def determineDelimit (allowsBody : Bool) (transferCodes : List String)
    (contentLength : Option Nat) : Delimit :=
  if !allowsBody then Delimit.nobody
  else if transferCodes.contains "chunked" then Delimit.chunked
  else if contentLength.isSome then Delimit.counted
  else Delimit.close

/-- `handle_input("")` as invoked by `_conn_closed`.  Modelled from the
spec: the parser (`thor/http/common.py`, not among the given sources) is
deterministic and eager, so re-feeding the leftover buffer with no new data
makes progress only where framing allows it: a `CLOSE`-delimited body flushes
the buffer as a body chunk; a `COUNTED` body delivers up to `bodyLeft` bytes
and calls `input_end` when the count is satisfied; partial headers or a
partial chunk stay buffered. -/
def handleInputFlush (s : St) : St :=
  if s.exc.isSome then s else
  if s.inputBuffer == "" then s else
  match s.inputState, s.inputDelimit with
  | InState.body, Delimit.close =>
    inputBody s.inputBuffer { s with inputBuffer := "" }
  | InState.body, Delimit.counted =>
    if s.bodyLeft ≤ s.inputBuffer.length then
      let chunk := String.mk (s.inputBuffer.data.take s.bodyLeft)
      let restBuf := String.mk (s.inputBuffer.data.drop s.bodyLeft)
      let s := inputBody chunk { s with inputBuffer := restBuf, bodyLeft := 0 }
      inputEnd [] s
    else
      inputBody s.inputBuffer
        { s with inputBuffer := "", bodyLeft := s.bodyLeft - s.inputBuffer.length }
  | _, _ => s

/-- The classification `_conn_closed` performs after flushing the buffer
(`client.py` 226–247).  On the `CLOSE`-delimiter branch line 227 calls
`self.input_end()` with no argument, but `input_end` (line 305) is declared
`def input_end(self, trailers)`, so the call raises
`TypeError: input_end() takes exactly 2 arguments (1 given)` before
`input_end`'s body runs: nothing is emitted and nothing is disposed.
`WAITING` ⇒ retry logic; otherwise a dropped-connection error. -/
def classifyClose (s : St) : St :=
  if s.exc.isSome then s else
  if s.inputDelimit == Delimit.close then
    { s with exc := some PyExc.typeError }
  else if s.inputState == InState.waiting then
    if idempotentMethods.contains s.method then
      if s.retries < s.cfg.retryLimit then
        { s with effects := s.effects ++ [Effect.scheduleRetry (s.cfg.retryDelay / 1000)],
                 pendingRetry := true }
      else
        inputError (Err.connectError
          ("Tried to connect " ++ toString (s.retries + 1) ++ " times.")) s
    else
      inputError (Err.connectError ("Can't retry " ++ s.method ++ " method")) s
  else
    inputError (Err.connectError
      "Server dropped connection before the response was complete.") s

/-- `_conn_closed()` (`client.py` 221–247): clear the timer; if the input
buffer holds bytes, feed them to the parser first; then classify the close. -/
def connClosed (s : St) : St :=
  if s.exc.isSome then s else
  let s := clearReadTimeout s
  if s.exc.isSome then s else
  let s := if s.inputBuffer != "" then handleInputFlush s else s
  classifyClose s

/-- `_retry()` (`client.py` 249–255): clear the timer, bump the retry count,
re-attach via the pool. -/
def retryFn (s : St) : St :=
  if s.exc.isSome then s else
  let s := clearReadTimeout s
  if s.exc.isSome then s else
  { s with retries := s.retries + 1,
           effects := s.effects ++ [Effect.attach s.host s.port] }

/-- `_handle_connect(tcp_conn)` (`client.py` 207–215): bind the connection,
arm the `connect`-kind read timeout (listener wiring and the output-buffer
kick have no observable effect here). -/
def handleConnect (c : Conn) (s : St) : St :=
  if s.exc.isSome then s else
  setReadTimeout { s with tcpConn := some c }

/-- `_handle_connect_error(err_type, err)` (`client.py` 217–219). -/
def handleConnectError (detail : String) (s : St) : St :=
  inputError (Err.connectError detail) s

/-! ## `request_start` -/

/-- A URI after `urlsplit` (Python standard library, external to this
repository): `request_start` only consumes the five split components, so the
split itself is taken as given. -/
structure Uri where
  scheme : String
  authority : String
  path : String
  query : String
  fragment : String
  deriving DecidableEq, Repr

/-- `urlunsplit(('', '', path, query, ''))` (Python standard library):
with empty scheme and netloc this is `path` plus `?query` when the query is
non-empty. -/
def urlunsplitPathQuery (path query : String) : String :=
  if query != "" then path ++ "?" ++ query else path

/-- The outbound body-framing decision of `request_start`
(`client.py` 173–178): `body_len = int(get_header(req_hdrs,
"content-length").pop(0)); delimit = COUNTED`, falling back to `NOBODY`
on `IndexError` (no such header) or `ValueError` (`int` fails). -/
def chooseDelimit (reqHdrs : Hdrs) : Delimit × Option Int :=
  match getHeader reqHdrs "content-length" with
  | [] => (Delimit.nobody, none)
  | v :: _ =>
    match pyInt v with
    | some n => (Delimit.counted, some n)
    | none => (Delimit.nobody, none)

/-- `request_start(method, uri, req_hdrs)` (`client.py` 145–185): strip
hop-by-hop headers, validate the scheme, split out userinfo and port,
default the path, append `Host` and `Connection: keep-alive`, choose the
outbound body framing from `Content-Length`, serialize the start line, and
ask the pool to attach a connection. -/
def requestStart (method : String) (uri : Uri) (reqHdrs : Hdrs) (s : St) : St :=
  if s.exc.isSome then s else
  let reqHdrs := reqHdrs.filter (fun i => !reqRmHdrs.contains (pyLower i.1))
  if pyLower uri.scheme != "http" then
    inputError (Err.urlError "Only HTTP URLs are supported") s
  else
    let authority : String :=
      if strContains uri.authority '@' then
        match pySplit1 '@' uri.authority with
        | [_, rest] => rest
        | _ => uri.authority
      else uri.authority
    let hostPort : Option (String × Int) :=
      if strContains authority ':' then
        match pyRsplit1 ':' authority with
        | [h, p] =>
          match pyInt p with
          | some n => some (h, n)
          | none => none
        | _ => none
      else some (authority, 80)
    match hostPort with
    | none =>
      -- `self._host` is already assigned before `int(port)` fails
      let h := (pyRsplit1 ':' authority).headD authority
      inputError (Err.urlError "Non-integer port in URL") { s with host := h }
    | some (h, p) =>
      let s := { s with host := h, port := p, method := method }
      let path := if uri.path == "" then "/" else uri.path
      let reqTarget := urlunsplitPathQuery path uri.query
      let reqHdrs := reqHdrs ++ [("Host", authority), ("Connection", "keep-alive")]
      let (delimit, bodyLen) := chooseDelimit reqHdrs
      let line := method ++ " " ++ reqTarget ++ " HTTP/1.1"
      { s with effects := s.effects
          ++ [Effect.outputStart line reqHdrs delimit bodyLen,
              Effect.attach h p] }

/-! ## Connection pool (`HttpClient._attach_conn` / `_release_conn`) -/

/-- The pool's idle map `self._conns`: an association list from the Python
dict key `(host, port)` (compared exactly, as Python tuple keys are) to the
idle list for that key. -/
abbrev Pool := List ((String × Int) × List Conn)

/-- Look up the idle list for a key (`self._conns[(host, port)]`),
`none` when the key is absent (`KeyError`). -/
def poolGet (p : Pool) (k : String × Int) : Option (List Conn) :=
  (p.find? (fun e => e.1 == k)).map (·.2)

/-- Replace the idle list for a key. -/
def poolSet (p : Pool) (k : String × Int) (l : List Conn) : Pool :=
  match p with
  | [] => [(k, l)]
  | e :: rest => if e.1 == k then (k, l) :: rest else e :: poolSet rest k l

/-- Outcome of `_attach_conn`: hand back an idle connection via
`handle_connect`, or open a new TCP connection. -/
inductive AttachResult where
  | reused (c : Conn)
  | fresh
  deriving DecidableEq, Repr

/-- The `while True` pop loop of `_attach_conn`, on the reversed idle list
(`list.pop()` pops the tail): keep discarding dead connections until a
connected one is found (`reused`) or the list is exhausted (`fresh`). -/
def attachLoop : List Conn → List Conn × AttachResult
  | [] => ([], AttachResult.fresh)
  | c :: rest =>
    if c.connected then (rest, AttachResult.reused c)
    else attachLoop rest

/-- `_attach_conn(host, port, ...)` (`client.py` 74–90): find an idle
connection for `(host, port)` or create a new one.  Returns the updated
pool and whether a pooled connection was reused. -/
def attachConn (p : Pool) (host : String) (port : Int) : Pool × AttachResult :=
  match poolGet p (host, port) with
  | none => (p, AttachResult.fresh)
  | some l =>
    let r := attachLoop l.reverse
    (poolSet p (host, port) r.1.reverse, r.2)

/-- `_release_conn(tcp_conn)` (`client.py` 92–115): if the connection is
still connected, append it to the idle list for its `(host, port)` key
(creating the entry if absent); otherwise drop it. -/
def releaseConn (p : Pool) (c : Conn) : Pool :=
  if c.connected then
    match poolGet p (c.host, c.port) with
    | none => poolSet p (c.host, c.port) [c]
    | some l => poolSet p (c.host, c.port) (l ++ [c])
  else p

/-! ## The exchange as a transition system

The steps below compose the source-faithful exchange methods with the
discipline of the external collaborators.  The guards are modelled from the
spec's contracts (§4.3.5, §6): the parser calls `input_start` once from
`WAITING`, delivers body chunks and the body end while mid-body, may report
an error while active, and may set its `inspecting` flag; TCP delivers
`connect`, `connect_error` and `close` events; the loop fires armed timers
and scheduled retries. -/

/-- The state reached after the parser completes the response headers:
`input_start` runs (source), then the parser fixes the body delimiter and
either starts the body or — when no body is allowed — immediately calls
`input_end` (`NOBODY` framing).  The deliberate `ValueError` raised by
`input_start` on a bad top line is caught by the parser, which stops
(terminal `ERROR` state).  Delimiter assignment and the catch are modelled
from the spec (§4.3.2, §4.3.5, §8). -/
def stepStartPost (topLine : String) (hdrTuples : Hdrs) (connTokens : List String)
    (transferCodes : List String) (contentLength : Option Nat) (s : St) : St :=
  let (s', allows) := inputStart topLine hdrTuples connTokens s
  if s'.exc = some PyExc.valueError then
    { s' with exc := none, inputState := InState.errorSt }
  else if s'.exc.isSome then s'
  else
    let d := determineDelimit allows transferCodes contentLength
    if d == Delimit.nobody then
      inputEnd [] { s' with inputDelimit := d }
    else
      { s' with inputDelimit := d, inputState := InState.body,
                bodyLeft := contentLength.getD 0 }

/-- One step of the composite exchange system.  The parameter `insp`
enables the parser's `inspecting` flag; with `insp = false` the flag is
never set. -/
inductive Step (insp : Bool) : St → St → Prop where
  | connect (c : Conn) (s : St) :
      s.exc = none → s.inputState = InState.waiting →
      Step insp s (handleConnect c s)
  | connectError (d : String) (s : St) :
      s.exc = none → s.inputState = InState.waiting →
      Step insp s (handleConnectError d s)
  | start (topLine : String) (hdrTuples : Hdrs) (connTokens transferCodes : List String)
      (contentLength : Option Nat) (s : St) :
      s.exc = none → s.inputState = InState.waiting → s.tcpConn.isSome = true →
      Step insp s (stepStartPost topLine hdrTuples connTokens transferCodes contentLength s)
  | body (chunk : String) (s : St) :
      s.exc = none → s.inputState = InState.body →
      Step insp s (inputBody chunk s)
  | endMsg (trailers : Hdrs) (s : St) :
      s.exc = none → s.inputState = InState.body →
      Step insp s (inputEnd trailers s)
  | parseError (e : Err) (s : St) :
      s.exc = none → (s.inputState = InState.waiting ∨ s.inputState = InState.body) →
      Step insp s (inputError e s)
  | closed (c : Conn) (s : St) :
      s.exc = none → s.tcpConn = some c →
      Step insp s (connClosed { s with tcpConn := some { c with connected := false } })
  | timerFire (kind : String) (s : St) :
      s.exc = none → s.armed = true →
      Step insp s (inputError (Err.readTimeoutError kind) { s with readTimeoutEv := some false })
  | retryFire (s : St) :
      s.exc = none → s.pendingRetry = true →
      Step insp s (retryFn { s with pendingRetry := false })
  | setInspect (s : St) :
      insp = true → s.exc = none →
      Step insp s { s with inspecting := true }

/-- The exchange state immediately after a successful `request_start`
(its pool-attach logged as the first connect attempt). -/
def initSt (cfg : Config) (method host : String) (port : Int) : St :=
  { cfg := cfg, method := method, host := host, port := port,
    effects := [Effect.attach host port] }

/-- Reachability: reflexive–transitive closure of `Step` from `initSt`. -/
inductive Reach (insp : Bool) (cfg : Config) (method host : String) (port : Int) :
    St → Prop where
  | refl : Reach insp cfg method host port (initSt cfg method host port)
  | tail {s s' : St} : Reach insp cfg method host port s → Step insp s s' →
      Reach insp cfg method host port s'

/-- Number of connect attempts so far: `attach` calls issued to the pool. -/
def countAttach (effects : List Effect) : Nat :=
  effects.countP (fun e => match e with | Effect.attach _ _ => true | _ => false)

/-! ## Trace vocabulary -/

/-- Is the event a `response_start`? -/
def isStartEv : Event → Bool
  | Event.responseStart _ _ _ => true
  | _ => false

/-- Is the event a `response_body`? -/
def isBodyEv : Event → Bool
  | Event.responseBody _ => true
  | _ => false

/-- Is the event an `error`? -/
def isErrorEv : Event → Bool
  | Event.error _ => true
  | _ => false

/-- Is the event terminal (`response_done` or `error`)? -/
def isTerminalEv : Event → Bool
  | Event.responseDone _ => true
  | Event.error _ => true
  | _ => false

/-- All events in the list are `response_body`. -/
def allBodies (es : List Event) : Bool := es.all isBodyEv

/-- The list is one `response_start` followed by only `response_body`s. -/
def startBodiesB : List Event → Bool
  | Event.responseStart _ _ _ :: bs => allBodies bs
  | _ => false

/-- What may follow a `response_start`: `response_body`s with at most one
terminal event, which must come last. -/
def orderOkTail : List Event → Bool
  | [] => true
  | [e] => isBodyEv e || isTerminalEv e
  | e :: rest => isBodyEv e && orderOkTail rest

/-- The claimed total order: at most one `response_start` first, then
`response_body`s, with at most one terminal event, last (an `error` may
also occur with no preceding `response_start`). -/
def orderOk : List Event → Bool
  | [] => true
  | [Event.error _] => true
  | Event.responseStart _ _ _ :: rest => orderOkTail rest
  | _ => false

/-- The list is non-empty, its last element is terminal, and no other
element is. -/
def endsOneTerminal : List Event → Bool
  | [] => false
  | [e] => isTerminalEv e
  | e :: rest => !isTerminalEv e && endsOneTerminal rest

/-! ### List lemmas about the trace vocabulary -/

theorem allBodies_append_body (bs : List Event) (c : String)
    (h : allBodies bs = true) : allBodies (bs ++ [Event.responseBody c]) = true := by
  simp only [allBodies, List.all_append, List.all_cons, List.all_nil] at *
  simp [h, isBodyEv]

theorem startBodiesB_append_body (es : List Event) (c : String)
    (h : startBodiesB es = true) :
    startBodiesB (es ++ [Event.responseBody c]) = true := by
  match es with
  | [] => simp [startBodiesB] at h
  | Event.responseStart a b d :: bs =>
    simpa [startBodiesB] using allBodies_append_body bs c (by simpa [startBodiesB] using h)
  | Event.responseBody _ :: _ => simp [startBodiesB] at h
  | Event.responseDone _ :: _ => simp [startBodiesB] at h
  | Event.error _ :: _ => simp [startBodiesB] at h

theorem orderOkTail_of_allBodies (bs : List Event) (h : allBodies bs = true) :
    orderOkTail bs = true := by
  induction bs with
  | nil => rfl
  | cons e rest ih =>
    simp only [allBodies, List.all_cons] at h
    have he : isBodyEv e = true := by simp_all
    have hr : allBodies rest = true := by simp_all [allBodies]
    match rest with
    | [] => simp [orderOkTail, he]
    | r :: rs => simpa [orderOkTail, he] using ih hr

theorem orderOkTail_allBodies_term (bs : List Event) (t : Event)
    (hb : allBodies bs = true) (ht : isTerminalEv t = true) :
    orderOkTail (bs ++ [t]) = true := by
  induction bs with
  | nil => simp [orderOkTail, ht]
  | cons e rest ih =>
    simp only [allBodies, List.all_cons] at hb
    have he : isBodyEv e = true := by simp_all
    have hr : allBodies rest = true := by simp_all [allBodies]
    have := ih hr
    match rest with
    | [] => simp [orderOkTail, he, ht]
    | r :: rs => simpa [orderOkTail, he] using this

theorem orderOk_of_startBodies (es : List Event) (h : startBodiesB es = true) :
    orderOk es = true := by
  match es with
  | Event.responseStart a b d :: bs =>
    simpa [orderOk] using orderOkTail_of_allBodies bs (by simpa [startBodiesB] using h)
  | [] => simp [startBodiesB] at h
  | Event.responseBody _ :: _ => simp [startBodiesB] at h
  | Event.responseDone _ :: _ => simp [startBodiesB] at h
  | Event.error _ :: _ => simp [startBodiesB] at h

theorem orderOk_startBodies_term (es : List Event) (t : Event)
    (h : startBodiesB es = true) (ht : isTerminalEv t = true) :
    orderOk (es ++ [t]) = true := by
  match es with
  | Event.responseStart a b d :: bs =>
    simpa [orderOk] using
      orderOkTail_allBodies_term bs t (by simpa [startBodiesB] using h) ht
  | [] => simp [startBodiesB] at h
  | Event.responseBody _ :: _ => simp [startBodiesB] at h
  | Event.responseDone _ :: _ => simp [startBodiesB] at h
  | Event.error _ :: _ => simp [startBodiesB] at h

theorem isBodyEv_not_terminal (e : Event) (h : isBodyEv e = true) :
    isTerminalEv e = false := by
  cases e <;> simp_all [isBodyEv, isTerminalEv]

theorem isStartEv_not_terminal (e : Event) (h : isStartEv e = true) :
    isTerminalEv e = false := by
  cases e <;> simp_all [isStartEv, isTerminalEv]

theorem endsOneTerminal_nonterm_pre (pre : List Event) (t : Event)
    (hp : ∀ e ∈ pre, isTerminalEv e = false) (ht : isTerminalEv t = true) :
    endsOneTerminal (pre ++ [t]) = true := by
  induction pre with
  | nil => simpa [endsOneTerminal]
  | cons e rest ih =>
    have he := hp e (by simp)
    have := ih (fun x hx => hp x (by simp [hx]))
    match rest, t with
    | [], _ => simp_all [endsOneTerminal]
    | r :: rs, _ => simp_all [endsOneTerminal]

theorem startBodies_no_terminal (es : List Event) (h : startBodiesB es = true) :
    ∀ e ∈ es, isTerminalEv e = false := by
  match es with
  | Event.responseStart a b d :: bs =>
    intro e he
    rcases List.mem_cons.mp he with rfl | hmem
    · rfl
    · have hb : allBodies bs = true := by simpa [startBodiesB] using h
      have hbody : isBodyEv e = true := by
        have := List.all_eq_true.mp (by simpa [allBodies] using hb) e hmem
        simpa using this
      exact isBodyEv_not_terminal e hbody
  | [] => simp [startBodiesB] at h
  | Event.responseBody _ :: _ => simp [startBodiesB] at h
  | Event.responseDone _ :: _ => simp [startBodiesB] at h
  | Event.error _ :: _ => simp [startBodiesB] at h

theorem countAttach_append (l : List Effect) (e : Effect) :
    countAttach (l ++ [e]) =
      countAttach l + (match e with | Effect.attach _ _ => 1 | _ => 0) := by
  simp only [countAttach, List.countP_append, List.countP_cons, List.countP_nil]
  cases e <;> simp

/-! ## Retry bookkeeping invariant (claim C3)

`RetryNeutral f` says `f` neither issues connect attempts nor touches the
retry counter or the pending-retry flag. -/

/-- The method leaves the retry bookkeeping untouched. -/
def RetryNeutral (f : St → St) : Prop :=
  ∀ s : St, (f s).retries = s.retries ∧ (f s).pendingRetry = s.pendingRetry ∧
    countAttach (f s).effects = countAttach s.effects ∧ (f s).cfg = s.cfg

theorem retryNeutral_comp {f g : St → St} (hf : RetryNeutral f) (hg : RetryNeutral g) :
    RetryNeutral (fun s => g (f s)) := by
  intro s
  obtain ⟨a1, a2, a3, a4⟩ := hf s
  obtain ⟨b1, b2, b3, b4⟩ := hg (f s)
  exact ⟨b1.trans a1, b2.trans a2, b3.trans a3, b4.trans a4⟩

theorem emitEv_retryNeutral (e : Event) : RetryNeutral (emitEv e) := by
  intro s; exact ⟨rfl, rfl, rfl, rfl⟩

theorem setReadTimeout_retryNeutral : RetryNeutral setReadTimeout := by
  intro s; unfold setReadTimeout
  cases s.cfg.readTimeout <;> exact ⟨rfl, rfl, rfl, rfl⟩

theorem clearReadTimeout_retryNeutral : RetryNeutral clearReadTimeout := by
  intro s; unfold clearReadTimeout
  by_cases hx : s.exc.isSome <;> simp only [hx]
  · exact ⟨rfl, rfl, rfl, rfl⟩
  · simp only [Bool.false_eq_true, if_false]
    cases s.cfg.readTimeout with
    | none => exact ⟨rfl, rfl, rfl, rfl⟩
    | some _ => cases s.readTimeoutEv <;> exact ⟨rfl, rfl, rfl, rfl⟩

/-! ## Branch characterizations of the exchange methods

Each lemma lists the exact possible result states of a method, to be reused
by the invariant proofs. -/

theorem clearReadTimeout_char (s : St) (hx : s.exc = none) :
    (s.cfg.readTimeout = none ∧ clearReadTimeout s = s) ∨
    (s.cfg.readTimeout.isSome = true ∧ s.readTimeoutEv = none ∧
      clearReadTimeout s = { s with exc := some PyExc.attributeError }) ∨
    (s.cfg.readTimeout.isSome = true ∧ s.readTimeoutEv.isSome = true ∧
      clearReadTimeout s = { s with readTimeoutEv := some false }) := by
  unfold clearReadTimeout
  simp only [hx, Option.isSome_none, Bool.false_eq_true, if_false]
  cases hr : s.cfg.readTimeout with
  | none => exact Or.inl ⟨rfl, rfl⟩
  | some _ =>
    cases he : s.readTimeoutEv with
    | none => exact Or.inr (Or.inl ⟨rfl, rfl, rfl⟩)
    | some _ => exact Or.inr (Or.inr ⟨rfl, rfl, rfl⟩)

theorem inputError_char (err : Err) (s : St) (hx : s.exc = none)
    (hi : s.inspecting = false) :
    ((clearReadTimeout s).exc.isSome = true ∧ inputError err s = clearReadTimeout s) ∨
    ((clearReadTimeout s).exc = none ∧ (clearReadTimeout s).tcpConn = none ∧
      inputError err s =
        emitEv (Event.error err) { clearReadTimeout s with inputState := InState.errorSt }) ∨
    (∃ c, (clearReadTimeout s).exc = none ∧ (clearReadTimeout s).tcpConn = some c ∧
      inputError err s =
        emitEv (Event.error err)
          { clearReadTimeout s with
              tcpConn := none,
              effects := (clearReadTimeout s).effects ++ [Effect.connClose],
              inputState := InState.errorSt }) := by
  by_cases hc : (clearReadTimeout s).exc.isSome = true
  · refine Or.inl ⟨hc, ?_⟩
    unfold inputError
    simp [hx, hi, hc]
  · have hcn : (clearReadTimeout s).exc = none := by
      cases h : (clearReadTimeout s).exc with
      | none => rfl
      | some _ => exact absurd (by simp [h]) hc
    cases htc : (clearReadTimeout s).tcpConn with
    | none =>
      refine Or.inr (Or.inl ⟨hcn, rfl, ?_⟩)
      unfold inputError
      simp [hx, hi, hc, htc]
    | some c =>
      refine Or.inr (Or.inr ⟨c, hcn, rfl, ?_⟩)
      unfold inputError
      simp [hx, hi, hc, htc]

theorem inputError_inspecting (err : Err) (s : St) (hx : s.exc = none)
    (hi : s.inspecting = true) :
    inputError err s = emitEv (Event.error err) { s with connReusable := false } := by
  unfold inputError
  simp [hx, hi]

theorem inputEnd_char (trailers : Hdrs) (s : St) (hx : s.exc = none) :
    ((clearReadTimeout s).exc.isSome = true ∧ inputEnd trailers s = clearReadTimeout s) ∨
    ((clearReadTimeout s).exc = none ∧ (clearReadTimeout s).tcpConn = none ∧
      inputEnd trailers s =
        emitEv (Event.responseDone trailers)
          { clearReadTimeout s with inputState := InState.done }) ∨
    (∃ c, (clearReadTimeout s).exc = none ∧ (clearReadTimeout s).tcpConn = some c ∧
      (c.connected && (clearReadTimeout s).connReusable) = true ∧
      inputEnd trailers s =
        emitEv (Event.responseDone trailers)
          { clearReadTimeout s with
              tcpConn := none,
              effects := (clearReadTimeout s).effects ++ [Effect.release c.host c.port],
              inputState := InState.done }) ∨
    (∃ c, (clearReadTimeout s).exc = none ∧ (clearReadTimeout s).tcpConn = some c ∧
      (c.connected && (clearReadTimeout s).connReusable) = false ∧
      inputEnd trailers s =
        emitEv (Event.responseDone trailers)
          { clearReadTimeout s with
              tcpConn := none,
              effects := (clearReadTimeout s).effects ++ [Effect.connClose],
              inputState := InState.done }) := by
  by_cases hc : (clearReadTimeout s).exc.isSome = true
  · refine Or.inl ⟨hc, ?_⟩
    unfold inputEnd
    simp [hx, hc]
  · have hcn : (clearReadTimeout s).exc = none := by
      cases h : (clearReadTimeout s).exc with
      | none => rfl
      | some _ => exact absurd (by simp [h]) hc
    cases htc : (clearReadTimeout s).tcpConn with
    | none =>
      refine Or.inr (Or.inl ⟨hcn, rfl, ?_⟩)
      unfold inputEnd
      simp [hx, hc, htc]
    | some c =>
      by_cases hr : (c.connected && (clearReadTimeout s).connReusable) = true
      · refine Or.inr (Or.inr (Or.inl ⟨c, hcn, rfl, hr, ?_⟩))
        unfold inputEnd
        simp [hx, hc, htc, hr]
      · refine Or.inr (Or.inr (Or.inr ⟨c, hcn, rfl, by simpa using hr, ?_⟩))
        unfold inputEnd
        simp [hx, hc, htc, hr]

theorem inputBody_char (chunk : String) (s : St) (hx : s.exc = none) :
    ((clearReadTimeout s).exc.isSome = true ∧ inputBody chunk s = clearReadTimeout s) ∨
    ((clearReadTimeout s).exc = none ∧
      inputBody chunk s =
        setReadTimeout (emitEv (Event.responseBody chunk) (clearReadTimeout s))) := by
  by_cases hc : (clearReadTimeout s).exc.isSome = true
  · refine Or.inl ⟨hc, ?_⟩
    unfold inputBody
    simp [hx, hc]
  · have hcn : (clearReadTimeout s).exc = none := by
      cases h : (clearReadTimeout s).exc with
      | none => rfl
      | some _ => exact absurd (by simp [h]) hc
    refine Or.inr ⟨hcn, ?_⟩
    unfold inputBody
    simp [hx, hc]

theorem inputStart_char (tl : String) (hd : Hdrs) (tk : List String) (s : St)
    (hx : s.exc = none) :
    ((clearReadTimeout s).exc.isSome = true ∧
      (inputStart tl hd tk s).1 = clearReadTimeout s) ∨
    (∃ e v, (clearReadTimeout s).exc = none ∧
      (inputStart tl hd tk s).1 =
        raiseVE (inputError e { clearReadTimeout s with resVersion := v })) ∨
    (∃ v cr code phrase, (clearReadTimeout s).exc = none ∧
      (cr = true ∨ cr = (clearReadTimeout s).connReusable) ∧
      (inputStart tl hd tk s).1 =
        emitEv (Event.responseStart code phrase hd)
          (setReadTimeout
            { clearReadTimeout s with resVersion := some v, connReusable := cr })) := by
  by_cases hc : (clearReadTimeout s).exc.isSome = true
  · refine Or.inl ⟨hc, ?_⟩
    unfold inputStart
    simp [hx, hc]
  · have hcn : (clearReadTimeout s).exc = none := by
      cases h : (clearReadTimeout s).exc with
      | none => rfl
      | some _ => exact absurd (by simp [h]) hc
    rcases htl : pySplitWs1 tl with _ | ⟨pv, _ | ⟨st', _ | ⟨x3, xs3⟩⟩⟩
    · refine Or.inr (Or.inl ⟨Err.httpVersionError tl, (clearReadTimeout s).resVersion, hcn, ?_⟩)
      unfold inputStart
      simp [hx, hc, htl]
    · refine Or.inr (Or.inl ⟨Err.httpVersionError tl, (clearReadTimeout s).resVersion, hcn, ?_⟩)
      unfold inputStart
      simp [hx, hc, htl]
    · rcases hpv : pyRsplit1 '/' pv with _ | ⟨proto, _ | ⟨ver, _ | ⟨y3, ys3⟩⟩⟩
      · refine Or.inr (Or.inl ⟨Err.httpVersionError tl, (clearReadTimeout s).resVersion, hcn, ?_⟩)
        unfold inputStart
        simp [hx, hc, htl, hpv]
      · refine Or.inr (Or.inl ⟨Err.httpVersionError tl, (clearReadTimeout s).resVersion, hcn, ?_⟩)
        unfold inputStart
        simp [hx, hc, htl, hpv]
      · by_cases hbad : (proto != "HTTP" || (ver != "1.0" && ver != "1.1")) = true
        · refine Or.inr (Or.inl ⟨Err.httpVersionError pv, some ver, hcn, ?_⟩)
          unfold inputStart
          simp [hx, hc, htl, hpv, hbad]
        · by_cases hru : "close" ∉ tk ∧ ((ver = "1.0" ∧ "keep-alive" ∈ tk) ∨ ver = "1.1")
          · rcases hst : pySplitWs1 st' with _ | ⟨c0, _ | ⟨p0, _ | ⟨z3, zs3⟩⟩⟩
            · refine Or.inr (Or.inr ⟨ver, true, pyRstrip st', "", hcn, Or.inl rfl, ?_⟩)
              unfold inputStart
              simp [hx, hc, htl, hpv, hbad, hru, hst]
            · refine Or.inr (Or.inr ⟨ver, true, pyRstrip st', "", hcn, Or.inl rfl, ?_⟩)
              unfold inputStart
              simp [hx, hc, htl, hpv, hbad, hru, hst]
            · refine Or.inr (Or.inr ⟨ver, true, c0, p0, hcn, Or.inl rfl, ?_⟩)
              unfold inputStart
              simp [hx, hc, htl, hpv, hbad, hru, hst]
            · refine Or.inr (Or.inr ⟨ver, true, pyRstrip st', "", hcn, Or.inl rfl, ?_⟩)
              unfold inputStart
              simp [hx, hc, htl, hpv, hbad, hru, hst]
          · rcases hst : pySplitWs1 st' with _ | ⟨c0, _ | ⟨p0, _ | ⟨z3, zs3⟩⟩⟩
            · refine Or.inr (Or.inr ⟨ver, (clearReadTimeout s).connReusable,
                pyRstrip st', "", hcn, Or.inr rfl, ?_⟩)
              unfold inputStart
              simp [hx, hc, htl, hpv, hbad, hru, hst]
            · refine Or.inr (Or.inr ⟨ver, (clearReadTimeout s).connReusable,
                pyRstrip st', "", hcn, Or.inr rfl, ?_⟩)
              unfold inputStart
              simp [hx, hc, htl, hpv, hbad, hru, hst]
            · refine Or.inr (Or.inr ⟨ver, (clearReadTimeout s).connReusable,
                c0, p0, hcn, Or.inr rfl, ?_⟩)
              unfold inputStart
              simp [hx, hc, htl, hpv, hbad, hru, hst]
            · refine Or.inr (Or.inr ⟨ver, (clearReadTimeout s).connReusable,
                pyRstrip st', "", hcn, Or.inr rfl, ?_⟩)
              unfold inputStart
              simp [hx, hc, htl, hpv, hbad, hru, hst]
      · refine Or.inr (Or.inl ⟨Err.httpVersionError tl, (clearReadTimeout s).resVersion, hcn, ?_⟩)
        unfold inputStart
        simp [hx, hc, htl, hpv]
    · refine Or.inr (Or.inl ⟨Err.httpVersionError tl, (clearReadTimeout s).resVersion, hcn, ?_⟩)
      unfold inputStart
      simp [hx, hc, htl]

/-! ### Short-circuit lemmas: each method is the identity on a state whose
`exc` is set. -/

theorem clearReadTimeout_of_exc (s : St) (h : s.exc.isSome = true) :
    clearReadTimeout s = s := by
  unfold clearReadTimeout; simp [h]

theorem inputError_of_exc (err : Err) (s : St) (h : s.exc.isSome = true) :
    inputError err s = s := by
  unfold inputError; simp [h]

theorem inputEnd_of_exc (trailers : Hdrs) (s : St) (h : s.exc.isSome = true) :
    inputEnd trailers s = s := by
  unfold inputEnd; simp [h]

theorem inputBody_of_exc (chunk : String) (s : St) (h : s.exc.isSome = true) :
    inputBody chunk s = s := by
  unfold inputBody; simp [h]

theorem connClosed_of_exc (s : St) (h : s.exc.isSome = true) :
    connClosed s = s := by
  unfold connClosed; simp [h]

theorem retryFn_of_exc (s : St) (h : s.exc.isSome = true) :
    retryFn s = s := by
  unfold retryFn; simp [h]

/-! ### The exchange methods are retry-neutral -/

theorem inputError_retryNeutral (err : Err) : RetryNeutral (inputError err) := by
  intro s
  by_cases hx : s.exc = none
  · by_cases hi : s.inspecting = true
    · rw [inputError_inspecting err s hx hi]
      exact ⟨rfl, rfl, rfl, rfl⟩
    · have hi' : s.inspecting = false := by simpa using hi
      obtain ⟨c1, c2, c3, c4⟩ := clearReadTimeout_retryNeutral s
      rcases inputError_char err s hx hi' with ⟨_, h⟩ | ⟨_, _, h⟩ | ⟨c, _, _, h⟩ <;> rw [h]
      · exact ⟨c1, c2, c3, c4⟩
      · exact ⟨c1, c2, c3, c4⟩
      · refine ⟨c1, c2, ?_, c4⟩
        show countAttach ((clearReadTimeout s).effects ++ [Effect.connClose]) = _
        rw [countAttach_append]
        simpa using c3
  · have hx' : s.exc.isSome = true := by
      cases h : s.exc with
      | none => exact absurd h hx
      | some _ => rfl
    rw [inputError_of_exc err s hx']
    exact ⟨rfl, rfl, rfl, rfl⟩

theorem inputEnd_retryNeutral (trailers : Hdrs) : RetryNeutral (inputEnd trailers) := by
  intro s
  by_cases hx : s.exc = none
  · obtain ⟨c1, c2, c3, c4⟩ := clearReadTimeout_retryNeutral s
    rcases inputEnd_char trailers s hx with
      ⟨_, h⟩ | ⟨_, _, h⟩ | ⟨c, _, _, _, h⟩ | ⟨c, _, _, _, h⟩ <;> rw [h]
    · exact ⟨c1, c2, c3, c4⟩
    · exact ⟨c1, c2, c3, c4⟩
    · refine ⟨c1, c2, ?_, c4⟩
      show countAttach ((clearReadTimeout s).effects ++ [Effect.release c.host c.port]) = _
      rw [countAttach_append]
      simpa using c3
    · refine ⟨c1, c2, ?_, c4⟩
      show countAttach ((clearReadTimeout s).effects ++ [Effect.connClose]) = _
      rw [countAttach_append]
      simpa using c3
  · have hx' : s.exc.isSome = true := by
      cases h : s.exc with
      | none => exact absurd h hx
      | some _ => rfl
    rw [inputEnd_of_exc trailers s hx']
    exact ⟨rfl, rfl, rfl, rfl⟩

theorem inputBody_retryNeutral (chunk : String) : RetryNeutral (inputBody chunk) := by
  intro s
  by_cases hx : s.exc = none
  · obtain ⟨c1, c2, c3, c4⟩ := clearReadTimeout_retryNeutral s
    rcases inputBody_char chunk s hx with ⟨_, h⟩ | ⟨_, h⟩ <;> rw [h]
    · exact ⟨c1, c2, c3, c4⟩
    · obtain ⟨d1, d2, d3, d4⟩ :=
        setReadTimeout_retryNeutral (emitEv (Event.responseBody chunk) (clearReadTimeout s))
      exact ⟨d1.trans c1, d2.trans c2, d3.trans c3, d4.trans c4⟩
  · have hx' : s.exc.isSome = true := by
      cases h : s.exc with
      | none => exact absurd h hx
      | some _ => rfl
    rw [inputBody_of_exc chunk s hx']
    exact ⟨rfl, rfl, rfl, rfl⟩

theorem inputStart_retryNeutral (tl : String) (hd : Hdrs) (tk : List String) :
    RetryNeutral (fun s => (inputStart tl hd tk s).1) := by
  intro s
  by_cases hx : s.exc = none
  · obtain ⟨c1, c2, c3, c4⟩ := clearReadTimeout_retryNeutral s
    rcases inputStart_char tl hd tk s hx with ⟨_, h⟩ | ⟨e, v, _, h⟩ | ⟨v, cr, code, ph, _, _, h⟩ <;>
      simp only [] <;> rw [h]
    · exact ⟨c1, c2, c3, c4⟩
    · obtain ⟨e1, e2, e3, e4⟩ :=
        inputError_retryNeutral e { clearReadTimeout s with resVersion := v }
      exact ⟨e1.trans c1, e2.trans c2, e3.trans c3, e4.trans c4⟩
    · obtain ⟨d1, d2, d3, d4⟩ := setReadTimeout_retryNeutral
        { clearReadTimeout s with resVersion := some v, connReusable := cr }
      exact ⟨d1.trans c1, d2.trans c2, d3.trans c3, d4.trans c4⟩
  · have hx' : s.exc.isSome = true := by
      cases h : s.exc with
      | none => exact absurd h hx
      | some _ => rfl
    have h : (inputStart tl hd tk s).1 = s := by
      unfold inputStart; simp [hx']
    refine ⟨?_, ?_, ?_, ?_⟩ <;> simp [h]

theorem handleInputFlush_retryNeutral : RetryNeutral handleInputFlush := by
  intro s
  by_cases hx : s.exc.isSome = true
  · have h : handleInputFlush s = s := by
      unfold handleInputFlush; simp [hx]
    refine ⟨?_, ?_, ?_, ?_⟩ <;> simp [h]
  · by_cases hb : (s.inputBuffer == "") = true
    · have h : handleInputFlush s = s := by
        unfold handleInputFlush; simp [hx, hb]
      refine ⟨?_, ?_, ?_, ?_⟩ <;> simp [h]
    · rcases hst : s.inputState <;> rcases hd : s.inputDelimit
      case neg.body.close =>
        have h : handleInputFlush s = inputBody s.inputBuffer { s with inputBuffer := "" } := by
          unfold handleInputFlush; simp [hx, hb, hst, hd]
        rw [h]
        obtain ⟨a1, a2, a3, a4⟩ :=
          inputBody_retryNeutral s.inputBuffer { s with inputBuffer := "" }
        exact ⟨a1, a2, a3, a4⟩
      case neg.body.counted =>
        by_cases hle : s.bodyLeft ≤ s.inputBuffer.length
        · have h : handleInputFlush s =
              inputEnd [] (inputBody (String.mk (s.inputBuffer.data.take s.bodyLeft))
                { s with inputBuffer := String.mk (s.inputBuffer.data.drop s.bodyLeft),
                         bodyLeft := 0 }) := by
            unfold handleInputFlush; simp [hx, hb, hst, hd, hle]
          rw [h]
          obtain ⟨a1, a2, a3, a4⟩ := inputBody_retryNeutral
            (String.mk (s.inputBuffer.data.take s.bodyLeft))
            { s with inputBuffer := String.mk (s.inputBuffer.data.drop s.bodyLeft), bodyLeft := 0 }
          obtain ⟨b1, b2, b3, b4⟩ := inputEnd_retryNeutral []
            (inputBody (String.mk (s.inputBuffer.data.take s.bodyLeft))
              { s with inputBuffer := String.mk (s.inputBuffer.data.drop s.bodyLeft), bodyLeft := 0 })
          exact ⟨b1.trans a1, b2.trans a2, b3.trans a3, b4.trans a4⟩
        · have h : handleInputFlush s = inputBody s.inputBuffer
              { s with inputBuffer := "",
                       bodyLeft := s.bodyLeft - s.inputBuffer.length } := by
            unfold handleInputFlush; simp [hx, hb, hst, hd, hle]
          rw [h]
          obtain ⟨a1, a2, a3, a4⟩ := inputBody_retryNeutral s.inputBuffer
            { s with inputBuffer := "", bodyLeft := s.bodyLeft - s.inputBuffer.length }
          exact ⟨a1, a2, a3, a4⟩
      all_goals
        (have h : handleInputFlush s = s := by
           unfold handleInputFlush
           simp [hx, hb, hst, hd]
         refine ⟨?_, ?_, ?_, ?_⟩ <;> simp [h])

theorem handleConnect_retryNeutral (c : Conn) : RetryNeutral (handleConnect c) := by
  intro s
  by_cases hx : s.exc.isSome = true
  · have h : handleConnect c s = s := by
      unfold handleConnect; simp [hx]
    refine ⟨?_, ?_, ?_, ?_⟩ <;> simp [h]
  · have h : handleConnect c s = setReadTimeout { s with tcpConn := some c } := by
      unfold handleConnect; simp [hx]
    rw [h]
    obtain ⟨a1, a2, a3, a4⟩ := setReadTimeout_retryNeutral { s with tcpConn := some c }
    exact ⟨a1, a2, a3, a4⟩

/-! ## The retry invariant and the attempts bound (claim C3) -/

/-- Retry bookkeeping: the number of connect attempts logged so far is
always `retries + 1`, and the retry counter never exceeds `retry_limit`;
a pending scheduled retry implies the counter is still below the limit. -/
def InvR (s : St) : Prop :=
  countAttach s.effects = s.retries + 1 ∧
  s.retries ≤ s.cfg.retryLimit ∧
  (s.pendingRetry = true → s.retries < s.cfg.retryLimit)

theorem invR_of_retryNeutral {f : St → St} (hf : RetryNeutral f) (s : St)
    (h : InvR s) : InvR (f s) := by
  obtain ⟨a1, a2, a3, a4⟩ := hf s
  obtain ⟨i1, i2, i3⟩ := h
  refine ⟨by rw [a3, a1]; exact i1, by rw [a1, a4]; exact i2, ?_⟩
  intro hp
  rw [a1, a4]
  exact i3 (by rw [← a2]; exact hp)

theorem stepStartPost_retryNeutral (tl : String) (hd : Hdrs) (tk codes : List String)
    (cl : Option Nat) : RetryNeutral (stepStartPost tl hd tk codes cl) := by
  intro s
  obtain ⟨a1, a2, a3, a4⟩ := inputStart_retryNeutral tl hd tk s
  simp only [] at a1 a2 a3 a4
  rcases hsa : inputStart tl hd tk s with ⟨s1, allows⟩
  rw [hsa] at a1 a2 a3 a4
  by_cases hve : s1.exc = some PyExc.valueError
  · have h : stepStartPost tl hd tk codes cl s = { s1 with exc := none, inputState := InState.errorSt } := by
      unfold stepStartPost; simp [hsa, hve]
    rw [h]; exact ⟨a1, a2, a3, a4⟩
  · by_cases hxs : s1.exc.isSome = true
    · have h : stepStartPost tl hd tk codes cl s = s1 := by
        unfold stepStartPost; simp [hsa, hve, hxs]
      rw [h]; exact ⟨a1, a2, a3, a4⟩
    · by_cases hnb : (determineDelimit allows codes cl == Delimit.nobody) = true
      · have h : stepStartPost tl hd tk codes cl s =
            inputEnd [] { s1 with inputDelimit := determineDelimit allows codes cl } := by
          unfold stepStartPost; simp [hsa, hve, hxs, hnb]
        rw [h]
        obtain ⟨b1, b2, b3, b4⟩ := inputEnd_retryNeutral []
          { s1 with inputDelimit := determineDelimit allows codes cl }
        exact ⟨b1.trans a1, b2.trans a2, b3.trans a3, b4.trans a4⟩
      · have h : stepStartPost tl hd tk codes cl s =
            { s1 with inputDelimit := determineDelimit allows codes cl,
                      inputState := InState.body, bodyLeft := cl.getD 0 } := by
          unfold stepStartPost; simp [hsa, hve, hxs, hnb]
        rw [h]; exact ⟨a1, a2, a3, a4⟩

theorem classifyClose_invR (s : St) (h : InvR s) : InvR (classifyClose s) := by
  by_cases hx : s.exc.isSome = true
  · have he : classifyClose s = s := by unfold classifyClose; simp [hx]
    rw [he]; exact h
  · by_cases hcl : (s.inputDelimit == Delimit.close) = true
    · have he : classifyClose s = { s with exc := some PyExc.typeError } := by
        unfold classifyClose; simp [hx, hcl]
      rw [he]
      exact ⟨h.1, h.2.1, fun hp => h.2.2 hp⟩
    · by_cases hw : (s.inputState == InState.waiting) = true
      · by_cases hid : (idempotentMethods.contains s.method) = true
        · have hid' : s.method ∈ idempotentMethods := by simpa using hid
          by_cases hlt : s.retries < s.cfg.retryLimit
          · have he : classifyClose s =
                { s with effects := s.effects ++ [Effect.scheduleRetry (s.cfg.retryDelay / 1000)],
                         pendingRetry := true } := by
              unfold classifyClose; simp [hx, hcl, hw, hid', hlt]
            rw [he]
            obtain ⟨i1, i2, i3⟩ := h
            refine ⟨?_, i2, fun _ => hlt⟩
            show countAttach (s.effects ++ [Effect.scheduleRetry _]) = s.retries + 1
            rw [countAttach_append]
            simpa using i1
          · have he : classifyClose s = inputError (Err.connectError
                ("Tried to connect " ++ toString (s.retries + 1) ++ " times.")) s := by
              unfold classifyClose; simp [hx, hcl, hw, hid', hlt]
            rw [he]; exact invR_of_retryNeutral (inputError_retryNeutral _) s h
        · have hid' : s.method ∉ idempotentMethods := by simpa using hid
          have he : classifyClose s = inputError
              (Err.connectError ("Can't retry " ++ s.method ++ " method")) s := by
            unfold classifyClose; simp [hx, hcl, hw, hid']
          rw [he]; exact invR_of_retryNeutral (inputError_retryNeutral _) s h
      · have he : classifyClose s = inputError (Err.connectError
            "Server dropped connection before the response was complete.") s := by
          unfold classifyClose; simp [hx, hcl, hw]
        rw [he]; exact invR_of_retryNeutral (inputError_retryNeutral _) s h

theorem connClosed_invR (s : St) (h : InvR s) : InvR (connClosed s) := by
  by_cases hx : s.exc.isSome = true
  · rw [connClosed_of_exc s hx]; exact h
  · by_cases hc : (clearReadTimeout s).exc.isSome = true
    · have he : connClosed s = clearReadTimeout s := by
        unfold connClosed; simp [hx, hc]
      rw [he]; exact invR_of_retryNeutral clearReadTimeout_retryNeutral s h
    · have h1 : InvR (clearReadTimeout s) :=
        invR_of_retryNeutral clearReadTimeout_retryNeutral s h
      by_cases hb : ((clearReadTimeout s).inputBuffer != "") = true
      · have he : connClosed s = classifyClose (handleInputFlush (clearReadTimeout s)) := by
          unfold connClosed; simp [hx, hc, hb]
        rw [he]
        exact classifyClose_invR _
          (invR_of_retryNeutral handleInputFlush_retryNeutral _ h1)
      · have he : connClosed s = classifyClose (clearReadTimeout s) := by
          unfold connClosed; simp [hx, hc, hb]
        rw [he]; exact classifyClose_invR _ h1

theorem retryFn_invR (s : St) (hp : s.pendingRetry = false) (h : InvR s)
    (hbudget : s.retries < s.cfg.retryLimit) : InvR (retryFn s) := by
  by_cases hx : s.exc.isSome = true
  · rw [retryFn_of_exc s hx]; exact h
  · by_cases hc : (clearReadTimeout s).exc.isSome = true
    · have he : retryFn s = clearReadTimeout s := by
        unfold retryFn; simp [hx, hc]
      rw [he]; exact invR_of_retryNeutral clearReadTimeout_retryNeutral s h
    · have he : retryFn s =
          { clearReadTimeout s with
              retries := (clearReadTimeout s).retries + 1,
              effects := (clearReadTimeout s).effects ++
                [Effect.attach (clearReadTimeout s).host (clearReadTimeout s).port] } := by
        unfold retryFn; simp [hx, hc]
      rw [he]
      obtain ⟨c1, c2, c3, c4⟩ := clearReadTimeout_retryNeutral s
      obtain ⟨i1, i2, i3⟩ := h
      refine ⟨?_, ?_, ?_⟩
      · show countAttach ((clearReadTimeout s).effects ++ [Effect.attach _ _]) =
          (clearReadTimeout s).retries + 1 + 1
        rw [countAttach_append, c3, c1, i1]
      · show (clearReadTimeout s).retries + 1 ≤ (clearReadTimeout s).cfg.retryLimit
        rw [c1, c4]
        exact hbudget
      · intro hpp
        show (clearReadTimeout s).retries + 1 < (clearReadTimeout s).cfg.retryLimit
        rw [c2, hp] at hpp
        exact absurd hpp (by simp)

theorem step_invR {insp : Bool} {s s1 : St} (hs : Step insp s s1) (h : InvR s) :
    InvR s1 := by
  cases hs with
  | connect c s hx hw => exact invR_of_retryNeutral (handleConnect_retryNeutral c) s h
  | connectError d s hx hw => exact invR_of_retryNeutral (inputError_retryNeutral _) s h
  | start tl hd tk codes cl s hx hw ht =>
    exact invR_of_retryNeutral (stepStartPost_retryNeutral tl hd tk codes cl) s h
  | body chunk s hx hb => exact invR_of_retryNeutral (inputBody_retryNeutral chunk) s h
  | endMsg trailers s hx hb => exact invR_of_retryNeutral (inputEnd_retryNeutral trailers) s h
  | parseError e s hx hw => exact invR_of_retryNeutral (inputError_retryNeutral e) s h
  | closed c s hx ht => exact connClosed_invR _ h
  | timerFire kind s hx ha => exact invR_of_retryNeutral (inputError_retryNeutral _) _ h
  | retryFire s hx hp =>
    refine retryFn_invR _ rfl ⟨h.1, h.2.1, ?_⟩ (h.2.2 hp)
    intro hpp
    exact absurd hpp (by simp)
  | setInspect s hi hx => exact h

theorem initSt_invR (cfg : Config) (m h : String) (p : Int) :
    InvR (initSt cfg m h p) := by
  refine ⟨?_, ?_, ?_⟩
  · simp [initSt, countAttach]
  · simp [initSt]
  · intro hp
    simp [initSt] at hp

theorem reach_invR {insp : Bool} {cfg : Config} {m hH : String} {p : Int} {s : St}
    (h : Reach insp cfg m hH p s) : InvR s := by
  induction h with
  | refl => exact initSt_invR cfg m hH p
  | tail _ hstep ih => exact step_invR hstep ih

/-! ## The trace-shape invariant (claims C2 and C8) -/

/-- When no read timeout is configured, no timer handle ever exists. -/
def RtOK (s : St) : Prop := s.cfg.readTimeout = none → s.readTimeoutEv = none

/-- Correspondence between the parser state and the shape of the emitted
event sequence, plus the terminal-state facts that block further steps. -/
def ShapeOK (s : St) : Prop :=
  (s.inputState = InState.waiting → s.events = [] ∧ s.inputDelimit = Delimit.none_) ∧
  (s.inputState = InState.body → startBodiesB s.events = true) ∧
  (s.inputState = InState.done →
    ∃ es t, s.events = es ++ [Event.responseDone t] ∧ startBodiesB es = true) ∧
  (s.inputState = InState.errorSt →
    ∃ es e, s.events = es ++ [Event.error e] ∧ (es = [] ∨ startBodiesB es = true)) ∧
  ((s.inputState = InState.done ∨ s.inputState = InState.errorSt) →
    s.tcpConn = none ∧ s.armed = false)

/-- Every event emitted while a read-timeout timer was armed is a
`response_start`. -/
def ArmedOK (s : St) : Prop := ∀ p ∈ s.trace, p.2 = true → isStartEv p.1 = true

/-- The composite invariant for runs without the parser's inspecting mode. -/
def Inv (s : St) : Prop :=
  s.inputBuffer = "" ∧ s.inspecting = false ∧ RtOK s ∧ ShapeOK s ∧ ArmedOK s

/-! ### Observation lemmas -/

theorem clearReadTimeout_obs (s : St) :
    (clearReadTimeout s).trace = s.trace ∧
    (clearReadTimeout s).inputState = s.inputState ∧
    (clearReadTimeout s).inputDelimit = s.inputDelimit ∧
    (clearReadTimeout s).inputBuffer = s.inputBuffer ∧
    (clearReadTimeout s).inspecting = s.inspecting ∧
    (clearReadTimeout s).tcpConn = s.tcpConn ∧
    (clearReadTimeout s).connReusable = s.connReusable ∧
    (clearReadTimeout s).cfg = s.cfg := by
  unfold clearReadTimeout
  by_cases hx : s.exc.isSome = true
  · simp [hx]
  · simp only [hx, Bool.false_eq_true, if_false]
    cases s.cfg.readTimeout with
    | none => simp
    | some _ => cases s.readTimeoutEv <;> simp

theorem clearReadTimeout_events (s : St) : (clearReadTimeout s).events = s.events := by
  show (clearReadTimeout s).trace.map Prod.fst = s.trace.map Prod.fst
  rw [(clearReadTimeout_obs s).1]

theorem clearReadTimeout_armed (s : St) (hx : s.exc = none) (hrt : RtOK s)
    (hsucc : (clearReadTimeout s).exc = none) : (clearReadTimeout s).armed = false := by
  rcases clearReadTimeout_char s hx with ⟨hn, he⟩ | ⟨_, _, he⟩ | ⟨_, _, he⟩
  · rw [he]
    have hev := hrt hn
    simp [St.armed, hev]
  · rw [he] at hsucc
    simp at hsucc
  · rw [he]
    simp [St.armed]

theorem clearReadTimeout_rtOK (s : St) (h : RtOK s) : RtOK (clearReadTimeout s) := by
  intro hn
  rw [(clearReadTimeout_obs s).2.2.2.2.2.2.2] at hn
  by_cases hx : s.exc = none
  · rcases clearReadTimeout_char s hx with ⟨_, he⟩ | ⟨hs, _, he⟩ | ⟨hs, _, he⟩
    · rw [he]; exact h hn
    · rw [hn] at hs; simp at hs
    · rw [hn] at hs; simp at hs
  · have hx' : s.exc.isSome = true := by
      cases hh : s.exc with
      | none => exact absurd hh hx
      | some _ => rfl
    rw [clearReadTimeout_of_exc s hx']
    exact h hn

theorem setReadTimeout_obs (s : St) :
    (setReadTimeout s).trace = s.trace ∧
    (setReadTimeout s).inputState = s.inputState ∧
    (setReadTimeout s).inputDelimit = s.inputDelimit ∧
    (setReadTimeout s).inputBuffer = s.inputBuffer ∧
    (setReadTimeout s).inspecting = s.inspecting ∧
    (setReadTimeout s).tcpConn = s.tcpConn ∧
    (setReadTimeout s).connReusable = s.connReusable ∧
    (setReadTimeout s).cfg = s.cfg ∧
    (setReadTimeout s).exc = s.exc ∧
    (setReadTimeout s).resVersion = s.resVersion := by
  unfold setReadTimeout
  cases s.cfg.readTimeout <;> simp

theorem setReadTimeout_events (s : St) : (setReadTimeout s).events = s.events := by
  show (setReadTimeout s).trace.map Prod.fst = s.trace.map Prod.fst
  rw [(setReadTimeout_obs s).1]

theorem setReadTimeout_rtOK (s : St) (h : RtOK s) : RtOK (setReadTimeout s) := by
  intro hn
  rw [(setReadTimeout_obs s).2.2.2.2.2.2.2.1] at hn
  unfold setReadTimeout
  rw [hn]
  exact h hn

theorem emitEv_events (e : Event) (s : St) : (emitEv e s).events = s.events ++ [e] := by
  simp [emitEv, St.events]

theorem emitEv_trace (e : Event) (s : St) :
    (emitEv e s).trace = s.trace ++ [(e, s.armed)] := rfl

theorem armedOK_append (s : St) (e : Event) (b : Bool) (h : ArmedOK s)
    (he : b = true → isStartEv e = true) :
    ∀ p ∈ s.trace ++ [(e, b)], p.2 = true → isStartEv p.1 = true := by
  intro p hp hb
  rcases List.mem_append.mp hp with hmem | hmem
  · exact h p hmem hb
  · have : p = (e, b) := by simpa using hmem
    subst this
    exact he hb

/-! ### Invariant preservation for the parser-callback methods -/

theorem inv_clearReadTimeout (s : St) (h : Inv s) : Inv (clearReadTimeout s) := by
  obtain ⟨hb, hi, hrt, hsh, hao⟩ := h
  obtain ⟨o1, o2, o3, o4, o5, o6, o7, o8⟩ := clearReadTimeout_obs s
  have hev : (clearReadTimeout s).events = s.events := clearReadTimeout_events s
  refine ⟨by rw [o4]; exact hb, by rw [o5]; exact hi, clearReadTimeout_rtOK s hrt, ?_, ?_⟩
  · obtain ⟨w, bo, d, e, t⟩ := hsh
    refine ⟨?_, ?_, ?_, ?_, ?_⟩
    · intro hw; rw [o2] at hw
      obtain ⟨p, q⟩ := w hw
      exact ⟨by rw [hev]; exact p, by rw [o3]; exact q⟩
    · intro hw; rw [o2] at hw
      rw [hev]; exact bo hw
    · intro hw; rw [o2] at hw
      obtain ⟨es, tr, p, q⟩ := d hw
      exact ⟨es, tr, by rw [hev]; exact p, q⟩
    · intro hw; rw [o2] at hw
      obtain ⟨es, er, p, q⟩ := e hw
      exact ⟨es, er, by rw [hev]; exact p, q⟩
    · intro hw; rw [o2] at hw
      obtain ⟨p, q⟩ := t hw
      refine ⟨by rw [o6]; exact p, ?_⟩
      by_cases hx : s.exc.isSome = true
      · rw [clearReadTimeout_of_exc s hx]; exact q
      · have hx' : s.exc = none := by
          cases hh : s.exc with
          | none => rfl
          | some _ => simp [hh] at hx
        rcases clearReadTimeout_char s hx' with ⟨_, he⟩ | ⟨_, _, he⟩ | ⟨_, _, he⟩ <;> rw [he]
        · exact q
        · exact q
        · simp [St.armed]
  · intro p hp
    rw [o1] at hp
    exact hao p hp

/-- Emitting `error` from a terminal record preserves the invariant. -/
theorem inv_emit_error (t : St) (err : Err)
    (hbuf : t.inputBuffer = "") (hins : t.inspecting = false) (hrt : RtOK t)
    (hst : t.inputState = InState.errorSt) (htc : t.tcpConn = none)
    (harm : t.armed = false) (hao : ArmedOK t)
    (hpre : t.events = [] ∨ startBodiesB t.events = true) :
    Inv (emitEv (Event.error err) t) := by
  refine ⟨hbuf, hins, hrt, ⟨?_, ?_, ?_, ?_, ?_⟩, ?_⟩
  · intro hw
    have h2 : t.inputState = InState.waiting := hw
    rw [hst] at h2; simp at h2
  · intro hw
    have h2 : t.inputState = InState.body := hw
    rw [hst] at h2; simp at h2
  · intro hw
    have h2 : t.inputState = InState.done := hw
    rw [hst] at h2; simp at h2
  · intro hw
    exact ⟨t.events, err, emitEv_events (Event.error err) t, hpre⟩
  · intro hw
    exact ⟨htc, harm⟩
  · intro p hp hpb
    rw [emitEv_trace] at hp
    rcases List.mem_append.mp hp with hmem | hmem
    · exact hao p hmem hpb
    · have hpe : p = (Event.error err, t.armed) := by simpa using hmem
      subst hpe
      rw [harm] at hpb
      cases hpb

/-- Emitting `response_done` from a terminal record preserves the invariant. -/
theorem inv_emit_done (t : St) (trailers : Hdrs)
    (hbuf : t.inputBuffer = "") (hins : t.inspecting = false) (hrt : RtOK t)
    (hst : t.inputState = InState.done) (htc : t.tcpConn = none)
    (harm : t.armed = false) (hao : ArmedOK t)
    (hsb : startBodiesB t.events = true) :
    Inv (emitEv (Event.responseDone trailers) t) := by
  refine ⟨hbuf, hins, hrt, ⟨?_, ?_, ?_, ?_, ?_⟩, ?_⟩
  · intro hw
    have h2 : t.inputState = InState.waiting := hw
    rw [hst] at h2; simp at h2
  · intro hw
    have h2 : t.inputState = InState.body := hw
    rw [hst] at h2; simp at h2
  · intro hw
    exact ⟨t.events, trailers, emitEv_events (Event.responseDone trailers) t, hsb⟩
  · intro hw
    have h2 : t.inputState = InState.errorSt := hw
    rw [hst] at h2; simp at h2
  · intro hw
    exact ⟨htc, harm⟩
  · intro p hp hpb
    rw [emitEv_trace] at hp
    rcases List.mem_append.mp hp with hmem | hmem
    · exact hao p hmem hpb
    · have hpe : p = (Event.responseDone trailers, t.armed) := by simpa using hmem
      subst hpe
      rw [harm] at hpb
      cases hpb

/-- Emitting `response_body` and re-arming the timer, from a mid-body
record, preserves the invariant. -/
theorem inv_emit_body (t : St) (chunk : String)
    (hbuf : t.inputBuffer = "") (hins : t.inspecting = false) (hrt : RtOK t)
    (hst : t.inputState = InState.body) (harm : t.armed = false) (hao : ArmedOK t)
    (hsb : startBodiesB t.events = true) :
    Inv (setReadTimeout (emitEv (Event.responseBody chunk) t)) := by
  set u := emitEv (Event.responseBody chunk) t with hu
  obtain ⟨o1, o2, o3, o4, o5, o6, o7, o8, o9⟩ := setReadTimeout_obs u
  have hevs : (setReadTimeout u).events = u.events := setReadTimeout_events u
  refine ⟨by rw [o4]; exact hbuf, by rw [o5]; exact hins, setReadTimeout_rtOK u hrt,
    ⟨?_, ?_, ?_, ?_, ?_⟩, ?_⟩
  · intro hw
    rw [o2] at hw
    have h2 : t.inputState = InState.waiting := hw
    rw [hst] at h2; simp at h2
  · intro hw
    rw [hevs, hu, emitEv_events]
    exact startBodiesB_append_body t.events chunk hsb
  · intro hw
    rw [o2] at hw
    have h2 : t.inputState = InState.done := hw
    rw [hst] at h2; simp at h2
  · intro hw
    rw [o2] at hw
    have h2 : t.inputState = InState.errorSt := hw
    rw [hst] at h2; simp at h2
  · intro hw
    rw [o2] at hw
    have h2 : t.inputState = InState.done ∨ t.inputState = InState.errorSt := hw
    rw [hst] at h2
    rcases h2 with h2 | h2 <;> simp at h2
  · intro p hp hpb
    rw [o1, hu, emitEv_trace] at hp
    rcases List.mem_append.mp hp with hmem | hmem
    · exact hao p hmem hpb
    · have hpe : p = (Event.responseBody chunk, t.armed) := by simpa using hmem
      subst hpe
      rw [harm] at hpb
      cases hpb

theorem inputError_inv (err : Err) (s : St) (hx : s.exc = none) (h : Inv s)
    (hpre : s.events = [] ∨ startBodiesB s.events = true) :
    Inv (inputError err s) := by
  obtain ⟨hb, hi, hrt, hsh, hao⟩ := h
  obtain ⟨o1, o2, o3, o4, o5, o6, o7, o8⟩ := clearReadTimeout_obs s
  rcases inputError_char err s hx hi with ⟨hc, he⟩ | ⟨hc, htc, he⟩ | ⟨c, hc, htc, he⟩
  · rw [he]
    exact inv_clearReadTimeout s ⟨hb, hi, hrt, hsh, hao⟩
  · rw [he]
    have harm : (clearReadTimeout s).armed = false := clearReadTimeout_armed s hx hrt hc
    have hev : ({ clearReadTimeout s with inputState := InState.errorSt } : St).events
        = s.events := clearReadTimeout_events s
    refine inv_emit_error _ err ?_ ?_ ?_ rfl ?_ ?_ ?_ ?_
    · show (clearReadTimeout s).inputBuffer = ""
      rw [o4]; exact hb
    · show (clearReadTimeout s).inspecting = false
      rw [o5]; exact hi
    · exact clearReadTimeout_rtOK s hrt
    · exact htc
    · exact harm
    · intro p hp
      exact hao p (by rwa [o1] at hp)
    · exact hev.symm ▸ hpre
  · rw [he]
    have harm : (clearReadTimeout s).armed = false := clearReadTimeout_armed s hx hrt hc
    have hev : ({ clearReadTimeout s with
        tcpConn := none,
        effects := (clearReadTimeout s).effects ++ [Effect.connClose],
        inputState := InState.errorSt } : St).events = s.events := clearReadTimeout_events s
    refine inv_emit_error _ err ?_ ?_ ?_ rfl rfl ?_ ?_ ?_
    · show (clearReadTimeout s).inputBuffer = ""
      rw [o4]; exact hb
    · show (clearReadTimeout s).inspecting = false
      rw [o5]; exact hi
    · exact clearReadTimeout_rtOK s hrt
    · exact harm
    · intro p hp
      exact hao p (by rwa [o1] at hp)
    · exact hev.symm ▸ hpre

theorem inputEnd_inv (trailers : Hdrs) (s : St) (hx : s.exc = none) (h : Inv s)
    (hsb : startBodiesB s.events = true) :
    Inv (inputEnd trailers s) := by
  obtain ⟨hb, hi, hrt, hsh, hao⟩ := h
  obtain ⟨o1, o2, o3, o4, o5, o6, o7, o8⟩ := clearReadTimeout_obs s
  have harmP : (clearReadTimeout s).exc = none → (clearReadTimeout s).armed = false :=
    fun hc => clearReadTimeout_armed s hx hrt hc
  have hevP : (clearReadTimeout s).events = s.events := clearReadTimeout_events s
  rcases inputEnd_char trailers s hx with
    ⟨hc, he⟩ | ⟨hc, htc, he⟩ | ⟨c, hc, htc, hcr, he⟩ | ⟨c, hc, htc, hcr, he⟩
  · rw [he]
    exact inv_clearReadTimeout s ⟨hb, hi, hrt, hsh, hao⟩
  · rw [he]
    refine inv_emit_done _ trailers ?_ ?_ ?_ rfl ?_ ?_ ?_ ?_
    · show (clearReadTimeout s).inputBuffer = ""
      rw [o4]; exact hb
    · show (clearReadTimeout s).inspecting = false
      rw [o5]; exact hi
    · exact clearReadTimeout_rtOK s hrt
    · exact htc
    · exact harmP hc
    · intro p hp
      exact hao p (by rwa [o1] at hp)
    · show startBodiesB ({ clearReadTimeout s with inputState := InState.done } : St).events = true
      have hev2 : ({ clearReadTimeout s with inputState := InState.done } : St).events
          = s.events := hevP
      rw [hev2]; exact hsb
  · rw [he]
    refine inv_emit_done _ trailers ?_ ?_ ?_ rfl rfl ?_ ?_ ?_
    · show (clearReadTimeout s).inputBuffer = ""
      rw [o4]; exact hb
    · show (clearReadTimeout s).inspecting = false
      rw [o5]; exact hi
    · exact clearReadTimeout_rtOK s hrt
    · exact harmP hc
    · intro p hp
      exact hao p (by rwa [o1] at hp)
    · show startBodiesB ({ clearReadTimeout s with
          tcpConn := none,
          effects := (clearReadTimeout s).effects ++ [Effect.release c.host c.port],
          inputState := InState.done } : St).events = true
      have hev2 : ({ clearReadTimeout s with
          tcpConn := none,
          effects := (clearReadTimeout s).effects ++ [Effect.release c.host c.port],
          inputState := InState.done } : St).events = s.events := hevP
      rw [hev2]; exact hsb
  · rw [he]
    refine inv_emit_done _ trailers ?_ ?_ ?_ rfl rfl ?_ ?_ ?_
    · show (clearReadTimeout s).inputBuffer = ""
      rw [o4]; exact hb
    · show (clearReadTimeout s).inspecting = false
      rw [o5]; exact hi
    · exact clearReadTimeout_rtOK s hrt
    · exact harmP hc
    · intro p hp
      exact hao p (by rwa [o1] at hp)
    · show startBodiesB ({ clearReadTimeout s with
          tcpConn := none,
          effects := (clearReadTimeout s).effects ++ [Effect.connClose],
          inputState := InState.done } : St).events = true
      have hev2 : ({ clearReadTimeout s with
          tcpConn := none,
          effects := (clearReadTimeout s).effects ++ [Effect.connClose],
          inputState := InState.done } : St).events = s.events := hevP
      rw [hev2]; exact hsb

theorem inputBody_inv (chunk : String) (s : St) (hx : s.exc = none) (h : Inv s)
    (hbody : s.inputState = InState.body) :
    Inv (inputBody chunk s) := by
  obtain ⟨hb, hi, hrt, hsh, hao⟩ := h
  obtain ⟨o1, o2, o3, o4, o5, o6, o7, o8⟩ := clearReadTimeout_obs s
  rcases inputBody_char chunk s hx with ⟨hc, he⟩ | ⟨hc, he⟩
  · rw [he]
    exact inv_clearReadTimeout s ⟨hb, hi, hrt, hsh, hao⟩
  · rw [he]
    refine inv_emit_body _ chunk ?_ ?_ ?_ ?_ ?_ ?_ ?_
    · rw [o4]; exact hb
    · rw [o5]; exact hi
    · exact clearReadTimeout_rtOK s hrt
    · rw [o2]; exact hbody
    · exact clearReadTimeout_armed s hx hrt hc
    · intro p hp
      exact hao p (by rwa [o1] at hp)
    · rw [clearReadTimeout_events s]
      exact hsh.2.1 hbody

theorem handleConnect_inv (c : Conn) (s : St) (h : Inv s)
    (hw : s.inputState = InState.waiting) : Inv (handleConnect c s) := by
  obtain ⟨hb, hi, hrt, hsh, hao⟩ := h
  by_cases hx : s.exc.isSome = true
  · have he : handleConnect c s = s := by
      unfold handleConnect; simp [hx]
    rw [he]; exact ⟨hb, hi, hrt, hsh, hao⟩
  · have he : handleConnect c s = setReadTimeout { s with tcpConn := some c } := by
      unfold handleConnect; simp [hx]
    rw [he]
    set t : St := { s with tcpConn := some c } with ht
    obtain ⟨o1, o2, o3, o4, o5, o6, o7, o8, o9⟩ := setReadTimeout_obs t
    have hevs : (setReadTimeout t).events = t.events := setReadTimeout_events t
    have hts : t.inputState = InState.waiting := hw
    refine ⟨by rw [o4]; exact hb, by rw [o5]; exact hi, setReadTimeout_rtOK t hrt,
      ⟨?_, ?_, ?_, ?_, ?_⟩, ?_⟩
    · intro _
      refine ⟨?_, ?_⟩
      · rw [hevs]
        exact (hsh.1 hw).1
      · rw [o3]
        exact (hsh.1 hw).2
    · intro hww
      rw [o2, hts] at hww; simp at hww
    · intro hww
      rw [o2, hts] at hww; simp at hww
    · intro hww
      rw [o2, hts] at hww; simp at hww
    · intro hww
      rw [o2, hts] at hww
      rcases hww with hww | hww <;> simp at hww
    · intro p hp
      exact hao p (by rwa [o1] at hp)

/-- A second `_clear_read_timeout` cannot raise once a first one succeeded,
provided the handle and configuration are carried over unchanged. -/
theorem clear_again_no_crash (s u : St) (hx : s.exc = none)
    (hcn : (clearReadTimeout s).exc = none)
    (hcfg : u.cfg = s.cfg) (hev : u.readTimeoutEv = (clearReadTimeout s).readTimeoutEv)
    (hux : u.exc = none) : (clearReadTimeout u).exc = none := by
  rcases clearReadTimeout_char u hux with ⟨_, he⟩ | ⟨hs2, hev2, _⟩ | ⟨_, _, he⟩
  · rw [he]; exact hux
  · exfalso
    rcases clearReadTimeout_char s hx with ⟨hn, he⟩ | ⟨_, _, he⟩ | ⟨_, _, he⟩
    · rw [hcfg, hn] at hs2; simp at hs2
    · rw [he] at hcn; simp at hcn
    · rw [he] at hev
      rw [hev] at hev2
      simp at hev2
  · rw [he]; exact hux

theorem stepStartPost_inv (tl : String) (hd : Hdrs) (tk codes : List String)
    (cl : Option Nat) (s : St) (hx : s.exc = none) (h : Inv s)
    (hw : s.inputState = InState.waiting) :
    Inv (stepStartPost tl hd tk codes cl s) := by
  obtain ⟨hb, hi, hrt, hsh, hao⟩ := h
  have hev0 : s.events = [] := (hsh.1 hw).1
  obtain ⟨o1, o2, o3, o4, o5, o6, o7, o8⟩ := clearReadTimeout_obs s
  have hevS : (clearReadTimeout s).events = s.events := clearReadTimeout_events s
  have hrtS : RtOK (clearReadTimeout s) := clearReadTimeout_rtOK s hrt
  rcases hsa : inputStart tl hd tk s with ⟨s1, al⟩
  rcases inputStart_char tl hd tk s hx with
    ⟨hcA, hres⟩ | ⟨e, v, hcn, hres⟩ | ⟨v, cr, code, ph, hcn, hcrOr, hres⟩
  · -- the first clear raised AttributeError
    have hres1 : s1 = clearReadTimeout s := by rw [hsa] at hres; exact hres
    have hattr : (clearReadTimeout s).exc = some PyExc.attributeError := by
      rcases clearReadTimeout_char s hx with ⟨_, he⟩ | ⟨_, _, he⟩ | ⟨_, _, he⟩
      · rw [he] at hcA; rw [hx] at hcA; simp at hcA
      · rw [he]
      · rw [he] at hcA; rw [show ({ s with readTimeoutEv := some false } : St).exc = s.exc
          from rfl, hx] at hcA; simp at hcA
    have he : stepStartPost tl hd tk codes cl s = s1 := by
      unfold stepStartPost
      rw [hsa]
      simp [hres1, hattr]
    rw [he, hres1]
    exact inv_clearReadTimeout s ⟨hb, hi, hrt, hsh, hao⟩
  · -- bad top line: HttpVersionError then ValueError
    have hres1 : s1 = raiseVE (inputError e { clearReadTimeout s with resVersion := v }) := by
      rw [hsa] at hres; exact hres
    set t : St := { clearReadTimeout s with resVersion := v } with htdef
    have htx : t.exc = none := hcn
    have hti : t.inspecting = false := by
      show (clearReadTimeout s).inspecting = false
      rw [o5]; exact hi
    have hrtT : RtOK t := hrtS
    have he : stepStartPost tl hd tk codes cl s =
        { inputError e t with exc := none, inputState := InState.errorSt } := by
      unfold stepStartPost
      rw [hsa]
      simp [hres1, raiseVE]
    rw [he]
    have harmT : (clearReadTimeout t).exc = none → (clearReadTimeout t).armed = false :=
      fun hc => clearReadTimeout_armed t htx hrtT hc
    have hnoc : (clearReadTimeout t).exc = none := by
      refine clear_again_no_crash s t hx hcn ?_ ?_ htx
      · show (clearReadTimeout s).cfg = s.cfg
        exact o8
      · rfl
    obtain ⟨p1, p2, p3, p4, p5, p6, p7, p8⟩ := clearReadTimeout_obs t
    have hevT : (clearReadTimeout t).events = t.events := clearReadTimeout_events t
    have hevT2 : t.events = s.events := hevS
    rcases inputError_char e t htx hti with ⟨hc2, he2⟩ | ⟨hc2, htc2, he2⟩ | ⟨c2, hc2, htc2, he2⟩
    · exfalso
      rw [hnoc] at hc2
      simp at hc2
    · have hre : ({ inputError e t with exc := none, inputState := InState.errorSt } : St)
          = emitEv (Event.error e)
              { clearReadTimeout t with exc := none, inputState := InState.errorSt } := by
        rw [he2]
        rfl
      rw [hre]
      refine inv_emit_error _ e ?_ ?_ ?_ rfl ?_ ?_ ?_ ?_
      · show (clearReadTimeout t).inputBuffer = ""
        rw [p4]
        show (clearReadTimeout s).inputBuffer = ""
        rw [o4]; exact hb
      · show (clearReadTimeout t).inspecting = false
        rw [p5]; exact hti
      · exact clearReadTimeout_rtOK t hrtT
      · show (clearReadTimeout t).tcpConn = none
        exact htc2
      · show (clearReadTimeout t).armed = false
        exact harmT hc2
      · intro p hp
        have hp2 : p ∈ t.trace := by rwa [p1] at hp
        have hp3 : p ∈ s.trace := by
          have : t.trace = (clearReadTimeout s).trace := rfl
          rw [this, o1] at hp2; exact hp2
        exact hao p hp3
      · refine Or.inl ?_
        show (clearReadTimeout t).events = []
        rw [hevT, hevT2, hev0]
    · have hre : ({ inputError e t with exc := none, inputState := InState.errorSt } : St)
          = emitEv (Event.error e)
              { clearReadTimeout t with
                  tcpConn := none,
                  effects := (clearReadTimeout t).effects ++ [Effect.connClose],
                  exc := none, inputState := InState.errorSt } := by
        rw [he2]
        rfl
      rw [hre]
      refine inv_emit_error _ e ?_ ?_ ?_ rfl rfl ?_ ?_ ?_
      · show (clearReadTimeout t).inputBuffer = ""
        rw [p4]
        show (clearReadTimeout s).inputBuffer = ""
        rw [o4]; exact hb
      · show (clearReadTimeout t).inspecting = false
        rw [p5]; exact hti
      · exact clearReadTimeout_rtOK t hrtT
      · show (clearReadTimeout t).armed = false
        exact harmT hc2
      · intro p hp
        have hp2 : p ∈ t.trace := by rwa [p1] at hp
        have hp3 : p ∈ s.trace := by
          have : t.trace = (clearReadTimeout s).trace := rfl
          rw [this, o1] at hp2; exact hp2
        exact hao p hp3
      · refine Or.inl ?_
        show (clearReadTimeout t).events = []
        rw [hevT, hevT2, hev0]
  · -- headers parsed: response_start emitted
    have hres1 : s1 = emitEv (Event.responseStart code ph hd)
        (setReadTimeout { clearReadTimeout s with resVersion := some v, connReusable := cr }) := by
      rw [hsa] at hres; exact hres
    set u : St := { clearReadTimeout s with resVersion := some v, connReusable := cr } with hu
    have hux : u.exc = none := hcn
    have hrtU : RtOK u := hrtS
    have hs1x : s1.exc = none := by
      rw [hres1]
      show (setReadTimeout u).exc = none
      rw [(setReadTimeout_obs u).2.2.2.2.2.2.2.2.1]
      exact hux
    have hs1events : s1.events = [Event.responseStart code ph hd] := by
      rw [hres1, emitEv_events, setReadTimeout_events]
      show u.events ++ _ = _
      have : u.events = s.events := hevS
      rw [this, hev0]
      rfl
    have hs1trace : ∀ p ∈ s1.trace, p.2 = true → isStartEv p.1 = true := by
      intro p hp hpb
      rw [hres1, emitEv_trace] at hp
      rcases List.mem_append.mp hp with hmem | hmem
      · refine hao p ?_ hpb
        have h1 : (setReadTimeout u).trace = u.trace := (setReadTimeout_obs u).1
        have h2 : u.trace = (clearReadTimeout s).trace := rfl
        rw [h1, h2, o1] at hmem
        exact hmem
      · have hpe : p = (Event.responseStart code ph hd, (setReadTimeout u).armed) := by
          simpa using hmem
        subst hpe
        rfl
    have hs1buf : s1.inputBuffer = "" := by
      rw [hres1]
      show (setReadTimeout u).inputBuffer = ""
      rw [(setReadTimeout_obs u).2.2.2.1]
      show (clearReadTimeout s).inputBuffer = ""
      rw [o4]; exact hb
    have hs1insp : s1.inspecting = false := by
      rw [hres1]
      show (setReadTimeout u).inspecting = false
      rw [(setReadTimeout_obs u).2.2.2.2.1]
      show (clearReadTimeout s).inspecting = false
      rw [o5]; exact hi
    have hs1rt : RtOK s1 := by
      rw [hres1]
      show RtOK (setReadTimeout u)
      exact setReadTimeout_rtOK u hrtU
    have hs1evOk : s1.cfg.readTimeout.isSome = true → s1.readTimeoutEv ≠ none := by
      intro hcfg
      rw [hres1]
      show (setReadTimeout u).readTimeoutEv ≠ none
      unfold setReadTimeout
      have hcfg2 : u.cfg.readTimeout.isSome = true := by
        have : s1.cfg = u.cfg := by rw [hres1]; exact (setReadTimeout_obs u).2.2.2.2.2.2.2.1
        rwa [this] at hcfg
      cases hcc : u.cfg.readTimeout with
      | none => rw [hcc] at hcfg2; simp at hcfg2
      | some _ => simp
    by_cases hnb : (determineDelimit al codes cl == Delimit.nobody) = true
    · have he : stepStartPost tl hd tk codes cl s =
          inputEnd [] { s1 with inputDelimit := determineDelimit al codes cl } := by
        unfold stepStartPost
        rw [hsa]
        have hnv : ¬(s1.exc = some PyExc.valueError) := by rw [hs1x]; simp
        have hni : ¬(s1.exc.isSome = true) := by rw [hs1x]; simp
        simp [hnv, hni, hnb]
      rw [he]
      set t2 : St := { s1 with inputDelimit := determineDelimit al codes cl } with ht2
      have ht2x : t2.exc = none := hs1x
      have hnoc2 : (clearReadTimeout t2).exc = none := by
        rcases clearReadTimeout_char t2 ht2x with ⟨_, hq⟩ | ⟨hq1, hq2, _⟩ | ⟨_, _, hq⟩
        · rw [hq]; exact ht2x
        · exfalso
          have : t2.readTimeoutEv ≠ none := hs1evOk hq1
          exact this hq2
        · rw [hq]; exact ht2x
      obtain ⟨q1, q2, q3, q4, q5, q6, q7, q8⟩ := clearReadTimeout_obs t2
      have hevT2 : (clearReadTimeout t2).events = t2.events := clearReadTimeout_events t2
      have harm2 : (clearReadTimeout t2).armed = false := by
        refine clearReadTimeout_armed t2 ht2x ?_ hnoc2
        exact hs1rt
      have hsb2 : startBodiesB (clearReadTimeout t2).events = true := by
        rw [hevT2]
        show startBodiesB s1.events = true
        rw [hs1events]
        rfl
      rcases inputEnd_char [] t2 ht2x with
        ⟨hc3, he3⟩ | ⟨hc3, htc3, he3⟩ | ⟨c3, hc3, htc3, hcr3, he3⟩ | ⟨c3, hc3, htc3, hcr3, he3⟩
      · exfalso
        rw [hnoc2] at hc3
        simp at hc3
      · rw [he3]
        refine inv_emit_done _ [] ?_ ?_ ?_ rfl ?_ ?_ ?_ ?_
        · show (clearReadTimeout t2).inputBuffer = ""
          rw [q4]; exact hs1buf
        · show (clearReadTimeout t2).inspecting = false
          rw [q5]; exact hs1insp
        · exact clearReadTimeout_rtOK t2 hs1rt
        · exact htc3
        · exact harm2
        · intro p hp
          have hp2 : p ∈ s1.trace := by rwa [q1] at hp
          exact fun hpb => hs1trace p hp2 hpb
        · exact hsb2
      · rw [he3]
        refine inv_emit_done _ [] ?_ ?_ ?_ rfl rfl ?_ ?_ ?_
        · show (clearReadTimeout t2).inputBuffer = ""
          rw [q4]; exact hs1buf
        · show (clearReadTimeout t2).inspecting = false
          rw [q5]; exact hs1insp
        · exact clearReadTimeout_rtOK t2 hs1rt
        · exact harm2
        · intro p hp
          have hp2 : p ∈ s1.trace := by rwa [q1] at hp
          exact fun hpb => hs1trace p hp2 hpb
        · exact hsb2
      · rw [he3]
        refine inv_emit_done _ [] ?_ ?_ ?_ rfl rfl ?_ ?_ ?_
        · show (clearReadTimeout t2).inputBuffer = ""
          rw [q4]; exact hs1buf
        · show (clearReadTimeout t2).inspecting = false
          rw [q5]; exact hs1insp
        · exact clearReadTimeout_rtOK t2 hs1rt
        · exact harm2
        · intro p hp
          have hp2 : p ∈ s1.trace := by rwa [q1] at hp
          exact fun hpb => hs1trace p hp2 hpb
        · exact hsb2
    · have he : stepStartPost tl hd tk codes cl s =
          { s1 with inputDelimit := determineDelimit al codes cl,
                    inputState := InState.body, bodyLeft := cl.getD 0 } := by
        unfold stepStartPost
        rw [hsa]
        have hnv : ¬(s1.exc = some PyExc.valueError) := by rw [hs1x]; simp
        have hni : ¬(s1.exc.isSome = true) := by rw [hs1x]; simp
        simp [hnv, hni, hnb]
      rw [he]
      refine ⟨hs1buf, hs1insp, hs1rt, ⟨?_, ?_, ?_, ?_, ?_⟩, ?_⟩
      · intro hww; simp at hww
      · intro _
        show startBodiesB s1.events = true
        rw [hs1events]
        rfl
      · intro hww; simp at hww
      · intro hww; simp at hww
      · intro hww
        rcases hww with hww | hww <;> simp at hww
      · intro p hp
        exact hs1trace p hp

theorem classifyClose_inv (s : St) (hx : s.exc = none) (h : Inv s)
    (hstate : s.inputState = InState.waiting ∨ s.inputState = InState.body) :
    Inv (classifyClose s) := by
  obtain ⟨hb, hi, hrt, hsh, hao⟩ := h
  by_cases hcl : (s.inputDelimit == Delimit.close) = true
  · have he : classifyClose s = { s with exc := some PyExc.typeError } := by
      unfold classifyClose
      simp [hx, hcl]
    rw [he]
    exact ⟨hb, hi, hrt, hsh, hao⟩
  · by_cases hw : (s.inputState == InState.waiting) = true
    · have hw' : s.inputState = InState.waiting := by simpa using hw
      by_cases hid : (idempotentMethods.contains s.method) = true
      · have hid' : s.method ∈ idempotentMethods := by simpa using hid
        by_cases hlt : s.retries < s.cfg.retryLimit
        · have he : classifyClose s =
              { s with effects := s.effects ++ [Effect.scheduleRetry (s.cfg.retryDelay / 1000)],
                       pendingRetry := true } := by
            unfold classifyClose
            simp [hx, hcl, hw, hid', hlt]
          rw [he]
          refine ⟨hb, hi, hrt, ⟨?_, ?_, ?_, ?_, ?_⟩, ?_⟩
          · intro _
            exact ⟨(hsh.1 hw').1, (hsh.1 hw').2⟩
          · intro hww
            have h2 : s.inputState = InState.body := hww
            rw [hw'] at h2; simp at h2
          · intro hww
            have h2 : s.inputState = InState.done := hww
            rw [hw'] at h2; simp at h2
          · intro hww
            have h2 : s.inputState = InState.errorSt := hww
            rw [hw'] at h2; simp at h2
          · intro hww
            have h2 : s.inputState = InState.done ∨ s.inputState = InState.errorSt := hww
            rw [hw'] at h2
            rcases h2 with h2 | h2 <;> simp at h2
          · intro p hp
            exact hao p hp
        · have he : classifyClose s = inputError (Err.connectError
              ("Tried to connect " ++ toString (s.retries + 1) ++ " times.")) s := by
            unfold classifyClose
            simp [hx, hcl, hw, hid', hlt]
          rw [he]
          exact inputError_inv _ s hx ⟨hb, hi, hrt, hsh, hao⟩ (Or.inl (hsh.1 hw').1)
      · have hid' : s.method ∉ idempotentMethods := by simpa using hid
        have he : classifyClose s = inputError
            (Err.connectError ("Can't retry " ++ s.method ++ " method")) s := by
          unfold classifyClose
          simp [hx, hcl, hw, hid']
        rw [he]
        exact inputError_inv _ s hx ⟨hb, hi, hrt, hsh, hao⟩ (Or.inl (hsh.1 hw').1)
    · have hbody : s.inputState = InState.body := by
        rcases hstate with hw2 | hb2
        · exfalso
          rw [hw2] at hw
          simp at hw
        · exact hb2
      have he : classifyClose s = inputError (Err.connectError
          "Server dropped connection before the response was complete.") s := by
        unfold classifyClose
        simp [hx, hcl, hw]
      rw [he]
      exact inputError_inv _ s hx ⟨hb, hi, hrt, hsh, hao⟩ (Or.inr (hsh.2.1 hbody))

theorem connClosed_inv (s : St) (hx : s.exc = none) (h : Inv s)
    (hstate : s.inputState = InState.waiting ∨ s.inputState = InState.body) :
    Inv (connClosed s) := by
  obtain ⟨hb, hi, hrt, hsh, hao⟩ := h
  obtain ⟨o1, o2, o3, o4, o5, o6, o7, o8⟩ := clearReadTimeout_obs s
  by_cases hc : (clearReadTimeout s).exc.isSome = true
  · have he : connClosed s = clearReadTimeout s := by
      unfold connClosed
      simp [hx, hc]
    rw [he]
    exact inv_clearReadTimeout s ⟨hb, hi, hrt, hsh, hao⟩
  · have hcn : (clearReadTimeout s).exc = none := by
      cases hh : (clearReadTimeout s).exc with
      | none => rfl
      | some _ => simp [hh] at hc
    have hbuf : ((clearReadTimeout s).inputBuffer != "") = false := by
      rw [o4, hb]
      rfl
    have he : connClosed s = classifyClose (clearReadTimeout s) := by
      unfold connClosed
      simp [hx, hc, hbuf]
    rw [he]
    refine classifyClose_inv (clearReadTimeout s) hcn
      (inv_clearReadTimeout s ⟨hb, hi, hrt, hsh, hao⟩) ?_
    rw [o2]
    exact hstate

theorem retryFn_inv (s : St) (h : Inv s) : Inv (retryFn s) := by
  by_cases hx : s.exc.isSome = true
  · rw [retryFn_of_exc s hx]
    exact h
  · by_cases hc : (clearReadTimeout s).exc.isSome = true
    · have he : retryFn s = clearReadTimeout s := by
        unfold retryFn
        simp [hx, hc]
      rw [he]
      exact inv_clearReadTimeout s h
    · have he : retryFn s =
          { clearReadTimeout s with
              retries := (clearReadTimeout s).retries + 1,
              effects := (clearReadTimeout s).effects ++
                [Effect.attach (clearReadTimeout s).host (clearReadTimeout s).port] } := by
        unfold retryFn
        simp [hx, hc]
      rw [he]
      exact inv_clearReadTimeout s h

/-- One step preserves the composite invariant in runs without the
inspecting mode. -/
theorem step_inv {s s1 : St} (hs : Step false s s1) (h : Inv s) : Inv s1 := by
  have hterm : ∀ u : St, Inv u → u.tcpConn ≠ none →
      u.inputState = InState.waiting ∨ u.inputState = InState.body := by
    intro u hu htc
    cases hst : u.inputState with
    | waiting => exact Or.inl rfl
    | body => exact Or.inr rfl
    | done => exact absurd (hu.2.2.2.1.2.2.2.2 (Or.inl hst)).1 htc
    | errorSt => exact absurd (hu.2.2.2.1.2.2.2.2 (Or.inr hst)).1 htc
  cases hs with
  | connect c s hx hw => exact handleConnect_inv c s h hw
  | connectError d s hx hw =>
    exact inputError_inv _ s hx h (Or.inl (h.2.2.2.1.1 hw).1)
  | start tl hd tk codes cl s hx hw ht =>
    exact stepStartPost_inv tl hd tk codes cl s hx h hw
  | body chunk s hx hb => exact inputBody_inv chunk s hx h hb
  | endMsg trailers s hx hb =>
    exact inputEnd_inv trailers s hx h (h.2.2.2.1.2.1 hb)
  | parseError e s hx hpre =>
    refine inputError_inv e s hx h ?_
    rcases hpre with hw | hb2
    · exact Or.inl (h.2.2.2.1.1 hw).1
    · exact Or.inr (h.2.2.2.1.2.1 hb2)
  | closed c s hx ht =>
    obtain ⟨hb, hi, hrt, hsh, hao⟩ := h
    have hstate : s.inputState = InState.waiting ∨ s.inputState = InState.body := by
      refine hterm s ⟨hb, hi, hrt, hsh, hao⟩ ?_
      rw [ht]; simp
    set s2 : St := { s with tcpConn := some { c with connected := false } } with hs2
    have h2 : Inv s2 := by
      refine ⟨hb, hi, hrt, ⟨?_, ?_, ?_, ?_, ?_⟩, ?_⟩
      · intro hw; exact hsh.1 hw
      · intro hw; exact hsh.2.1 hw
      · intro hw; exact hsh.2.2.1 hw
      · intro hw; exact hsh.2.2.2.1 hw
      · intro hw
        rcases hstate with hq | hq <;>
          (rcases hw with hw | hw <;> (rw [hq] at hw; simp at hw))
      · intro p hp; exact hao p hp
    exact connClosed_inv s2 hx h2 hstate
  | timerFire kind s hx ha =>
    obtain ⟨hb, hi, hrt, hsh, hao⟩ := h
    have hcfg : s.cfg.readTimeout ≠ none := by
      intro hn
      have hev := hrt hn
      rw [St.armed, hev] at ha
      simp at ha
    have hstate : s.inputState = InState.waiting ∨ s.inputState = InState.body := by
      cases hst : s.inputState with
      | waiting => exact Or.inl rfl
      | body => exact Or.inr rfl
      | done =>
        exfalso
        have := (hsh.2.2.2.2 (Or.inl hst)).2
        rw [this] at ha; cases ha
      | errorSt =>
        exfalso
        have := (hsh.2.2.2.2 (Or.inr hst)).2
        rw [this] at ha; cases ha
    set s2 : St := { s with readTimeoutEv := some false } with hs2
    have h2 : Inv s2 := by
      refine ⟨hb, hi, fun hn => absurd hn hcfg, ⟨?_, ?_, ?_, ?_, ?_⟩, ?_⟩
      · intro hw; exact hsh.1 hw
      · intro hw; exact hsh.2.1 hw
      · intro hw; exact hsh.2.2.1 hw
      · intro hw; exact hsh.2.2.2.1 hw
      · intro hw
        refine ⟨(hsh.2.2.2.2 hw).1, ?_⟩
        simp [St.armed]
      · intro p hp; exact hao p hp
    refine inputError_inv _ s2 hx h2 ?_
    rcases hstate with hw | hb2
    · exact Or.inl (hsh.1 hw).1
    · exact Or.inr (hsh.2.1 hb2)
  | retryFire s hx hp =>
    refine retryFn_inv _ ?_
    obtain ⟨hb, hi, hrt, hsh, hao⟩ := h
    exact ⟨hb, hi, hrt, hsh, hao⟩
  | setInspect s hi hx => cases hi

theorem initSt_inv (cfg : Config) (m hH : String) (p : Int) :
    Inv (initSt cfg m hH p) := by
  refine ⟨rfl, rfl, fun _ => rfl, ⟨?_, ?_, ?_, ?_, ?_⟩, ?_⟩
  · intro _; exact ⟨rfl, rfl⟩
  · intro hw; simp [initSt] at hw
  · intro hw; simp [initSt] at hw
  · intro hw; simp [initSt] at hw
  · intro hw; rcases hw with hw | hw <;> simp [initSt] at hw
  · intro p hp; simp [initSt] at hp

/-- Every state reachable without the inspecting mode satisfies the
composite invariant. -/
theorem reach_inv {cfg : Config} {m hH : String} {p : Int} {s : St}
    (h : Reach false cfg m hH p s) : Inv s := by
  induction h with
  | refl => exact initSt_inv cfg m hH p
  | tail _ hstep ih => exact step_inv hstep ih

/-! ## The armed-emission invariant over all runs (claim C8)

Unlike `Inv`, this invariant also holds in runs where the parser enters
inspecting mode: every exchange method clears the read timer before
emitting, except that `input_error` while inspecting skips the clear —
but it emits an `error`, and `input_start` re-arms before emitting
`response_start`.  So the only events that can carry the armed flag are
`response_start` and `error`. -/

/-- Every event emitted while a read-timeout timer was armed is a
`response_start` or an `error` — in every run, inspecting or not. -/
def ArmedOkA (s : St) : Prop :=
  ∀ p ∈ s.trace, p.2 = true → (isStartEv p.1 || isErrorEv p.1) = true

/-- The timer-handle discipline together with the armed-emission property. -/
def InvA (s : St) : Prop := RtOK s ∧ ArmedOkA s

theorem invA_emit (e : Event) (s : St) (h : InvA s)
    (he : s.armed = true → (isStartEv e || isErrorEv e) = true) :
    InvA (emitEv e s) := by
  refine ⟨fun hn => h.1 hn, ?_⟩
  intro p hp hb
  rw [emitEv_trace] at hp
  rcases List.mem_append.mp hp with hmem | hmem
  · exact h.2 p hmem hb
  · have hpe : p = (e, s.armed) := by simpa using hmem
    rw [hpe] at hb ⊢
    exact he hb

theorem invA_clearReadTimeout (s : St) (h : InvA s) : InvA (clearReadTimeout s) := by
  refine ⟨clearReadTimeout_rtOK s h.1, ?_⟩
  intro p hp hb
  rw [(clearReadTimeout_obs s).1] at hp
  exact h.2 p hp hb

theorem invA_setReadTimeout (s : St) (h : InvA s) : InvA (setReadTimeout s) := by
  refine ⟨setReadTimeout_rtOK s h.1, ?_⟩
  intro p hp hb
  rw [(setReadTimeout_obs s).1] at hp
  exact h.2 p hp hb

theorem invA_inputError (err : Err) (s : St) (h : InvA s) : InvA (inputError err s) := by
  by_cases hx : s.exc = none
  · by_cases hi : s.inspecting = true
    · rw [inputError_inspecting err s hx hi]
      exact invA_emit (Event.error err) { s with connReusable := false }
        ⟨fun hn => h.1 hn, fun p hp hb => h.2 p hp hb⟩ (fun _ => rfl)
    · have hi' : s.inspecting = false := by
        cases hh : s.inspecting
        · rfl
        · exact absurd hh hi
      rcases inputError_char err s hx hi' with ⟨_, he⟩ | ⟨_, _, he⟩ | ⟨c, _, _, he⟩ <;> rw [he]
      · exact invA_clearReadTimeout s h
      · have h2 := invA_clearReadTimeout s h
        exact invA_emit _ _ ⟨fun hn => h2.1 hn, fun p hp hb => h2.2 p hp hb⟩ (fun _ => rfl)
      · have h2 := invA_clearReadTimeout s h
        exact invA_emit _ _ ⟨fun hn => h2.1 hn, fun p hp hb => h2.2 p hp hb⟩ (fun _ => rfl)
  · have hx' : s.exc.isSome = true := by
      cases hh : s.exc with
      | none => exact absurd hh hx
      | some _ => rfl
    rw [inputError_of_exc err s hx']
    exact h

theorem invA_inputEnd (trailers : Hdrs) (s : St) (h : InvA s) : InvA (inputEnd trailers s) := by
  by_cases hx : s.exc = none
  · rcases inputEnd_char trailers s hx with
      ⟨_, he⟩ | ⟨hcn, _, he⟩ | ⟨c, hcn, _, _, he⟩ | ⟨c, hcn, _, _, he⟩ <;> rw [he]
    · exact invA_clearReadTimeout s h
    · have h2 := invA_clearReadTimeout s h
      refine invA_emit _ _ ⟨fun hn => h2.1 hn, fun p hp hb => h2.2 p hp hb⟩ ?_
      intro hb
      have hb2 : (clearReadTimeout s).armed = true := hb
      rw [clearReadTimeout_armed s hx h.1 hcn] at hb2
      cases hb2
    · have h2 := invA_clearReadTimeout s h
      refine invA_emit _ _ ⟨fun hn => h2.1 hn, fun p hp hb => h2.2 p hp hb⟩ ?_
      intro hb
      have hb2 : (clearReadTimeout s).armed = true := hb
      rw [clearReadTimeout_armed s hx h.1 hcn] at hb2
      cases hb2
    · have h2 := invA_clearReadTimeout s h
      refine invA_emit _ _ ⟨fun hn => h2.1 hn, fun p hp hb => h2.2 p hp hb⟩ ?_
      intro hb
      have hb2 : (clearReadTimeout s).armed = true := hb
      rw [clearReadTimeout_armed s hx h.1 hcn] at hb2
      cases hb2
  · have hx' : s.exc.isSome = true := by
      cases hh : s.exc with
      | none => exact absurd hh hx
      | some _ => rfl
    rw [inputEnd_of_exc trailers s hx']
    exact h

theorem invA_inputBody (chunk : String) (s : St) (h : InvA s) : InvA (inputBody chunk s) := by
  by_cases hx : s.exc = none
  · rcases inputBody_char chunk s hx with ⟨_, he⟩ | ⟨hcn, he⟩ <;> rw [he]
    · exact invA_clearReadTimeout s h
    · refine invA_setReadTimeout _ ?_
      refine invA_emit _ _ (invA_clearReadTimeout s h) ?_
      intro hb
      rw [clearReadTimeout_armed s hx h.1 hcn] at hb
      cases hb
  · have hx' : s.exc.isSome = true := by
      cases hh : s.exc with
      | none => exact absurd hh hx
      | some _ => rfl
    rw [inputBody_of_exc chunk s hx']
    exact h

theorem invA_inputStart (tl : String) (hd : Hdrs) (tk : List String) (s : St)
    (h : InvA s) : InvA (inputStart tl hd tk s).1 := by
  by_cases hx : s.exc = none
  · rcases inputStart_char tl hd tk s hx with
      ⟨_, he⟩ | ⟨e, v, _, he⟩ | ⟨v, cr, code, phrase, _, _, he⟩ <;> rw [he]
    · exact invA_clearReadTimeout s h
    · have h2 := invA_clearReadTimeout s h
      have h3 : InvA (inputError e { clearReadTimeout s with resVersion := v }) :=
        invA_inputError e _ ⟨fun hn => h2.1 hn, fun p hp hb => h2.2 p hp hb⟩
      exact ⟨fun hn => h3.1 hn, fun p hp hb => h3.2 p hp hb⟩
    · have h2 := invA_clearReadTimeout s h
      refine invA_emit _ _ ?_ (fun _ => rfl)
      exact invA_setReadTimeout _ ⟨fun hn => h2.1 hn, fun p hp hb => h2.2 p hp hb⟩
  · have hx' : s.exc.isSome = true := by
      cases hh : s.exc with
      | none => exact absurd hh hx
      | some _ => rfl
    have he : (inputStart tl hd tk s).1 = s := by
      unfold inputStart
      simp [hx']
    rw [he]
    exact h

theorem invA_stepStartPost (tl : String) (hd : Hdrs) (tk codes : List String)
    (cl : Option Nat) (s : St) (h : InvA s) : InvA (stepStartPost tl hd tk codes cl s) := by
  have h1 : InvA (inputStart tl hd tk s).1 := invA_inputStart tl hd tk s h
  rcases hsa : inputStart tl hd tk s with ⟨s1, allows⟩
  rw [hsa] at h1
  have h1' : InvA s1 := h1
  by_cases hve : s1.exc = some PyExc.valueError
  · have he : stepStartPost tl hd tk codes cl s =
        { s1 with exc := none, inputState := InState.errorSt } := by
      unfold stepStartPost; simp [hsa, hve]
    rw [he]
    exact ⟨fun hn => h1'.1 hn, fun p hp hb => h1'.2 p hp hb⟩
  · by_cases hxs : s1.exc.isSome = true
    · have he : stepStartPost tl hd tk codes cl s = s1 := by
        unfold stepStartPost; simp [hsa, hve, hxs]
      rw [he]; exact h1'
    · by_cases hnb : (determineDelimit allows codes cl == Delimit.nobody) = true
      · have he : stepStartPost tl hd tk codes cl s =
            inputEnd [] { s1 with inputDelimit := determineDelimit allows codes cl } := by
          unfold stepStartPost; simp [hsa, hve, hxs, hnb]
        rw [he]
        exact invA_inputEnd [] _ ⟨fun hn => h1'.1 hn, fun p hp hb => h1'.2 p hp hb⟩
      · have he : stepStartPost tl hd tk codes cl s =
            { s1 with inputDelimit := determineDelimit allows codes cl,
                      inputState := InState.body, bodyLeft := cl.getD 0 } := by
          unfold stepStartPost; simp [hsa, hve, hxs, hnb]
        rw [he]
        exact ⟨fun hn => h1'.1 hn, fun p hp hb => h1'.2 p hp hb⟩

theorem invA_handleConnect (c : Conn) (s : St) (h : InvA s) : InvA (handleConnect c s) := by
  by_cases hx : s.exc.isSome = true
  · have he : handleConnect c s = s := by unfold handleConnect; simp [hx]
    rw [he]; exact h
  · have he : handleConnect c s = setReadTimeout { s with tcpConn := some c } := by
      unfold handleConnect; simp [hx]
    rw [he]
    exact invA_setReadTimeout _ ⟨fun hn => h.1 hn, fun p hp hb => h.2 p hp hb⟩

theorem invA_retryFn (s : St) (h : InvA s) : InvA (retryFn s) := by
  by_cases hx : s.exc.isSome = true
  · rw [retryFn_of_exc s hx]; exact h
  · by_cases hc : (clearReadTimeout s).exc.isSome = true
    · have he : retryFn s = clearReadTimeout s := by unfold retryFn; simp [hx, hc]
      rw [he]; exact invA_clearReadTimeout s h
    · have he : retryFn s =
          { clearReadTimeout s with
              retries := (clearReadTimeout s).retries + 1,
              effects := (clearReadTimeout s).effects ++
                [Effect.attach (clearReadTimeout s).host (clearReadTimeout s).port] } := by
        unfold retryFn; simp [hx, hc]
      rw [he]
      have h2 := invA_clearReadTimeout s h
      exact ⟨fun hn => h2.1 hn, fun p hp hb => h2.2 p hp hb⟩

theorem invA_handleInputFlush (s : St) (h : InvA s) : InvA (handleInputFlush s) := by
  by_cases hx : s.exc.isSome = true
  · have he : handleInputFlush s = s := by unfold handleInputFlush; simp [hx]
    rw [he]; exact h
  · by_cases hb : (s.inputBuffer == "") = true
    · have he : handleInputFlush s = s := by unfold handleInputFlush; simp [hx, hb]
      rw [he]; exact h
    · rcases hst : s.inputState <;> rcases hd : s.inputDelimit
      case neg.body.close =>
        have he : handleInputFlush s = inputBody s.inputBuffer { s with inputBuffer := "" } := by
          unfold handleInputFlush; simp [hx, hb, hst, hd]
        rw [he]
        exact invA_inputBody _ _ ⟨fun hn => h.1 hn, fun p hp hb2 => h.2 p hp hb2⟩
      case neg.body.counted =>
        by_cases hle : s.bodyLeft ≤ s.inputBuffer.length
        · have he : handleInputFlush s =
              inputEnd [] (inputBody (String.mk (s.inputBuffer.data.take s.bodyLeft))
                { s with inputBuffer := String.mk (s.inputBuffer.data.drop s.bodyLeft),
                         bodyLeft := 0 }) := by
            unfold handleInputFlush; simp [hx, hb, hst, hd, hle]
          rw [he]
          refine invA_inputEnd [] _ ?_
          exact invA_inputBody _ _ ⟨fun hn => h.1 hn, fun p hp hb2 => h.2 p hp hb2⟩
        · have he : handleInputFlush s = inputBody s.inputBuffer
              { s with inputBuffer := "",
                       bodyLeft := s.bodyLeft - s.inputBuffer.length } := by
            unfold handleInputFlush; simp [hx, hb, hst, hd, hle]
          rw [he]
          exact invA_inputBody _ _ ⟨fun hn => h.1 hn, fun p hp hb2 => h.2 p hp hb2⟩
      all_goals
        (have he : handleInputFlush s = s := by
           unfold handleInputFlush
           simp [hx, hb, hst, hd]
         rw [he]
         exact h)

theorem invA_classifyClose (s : St) (h : InvA s) : InvA (classifyClose s) := by
  by_cases hx : s.exc.isSome = true
  · have he : classifyClose s = s := by unfold classifyClose; simp [hx]
    rw [he]; exact h
  · by_cases hcl : (s.inputDelimit == Delimit.close) = true
    · have he : classifyClose s = { s with exc := some PyExc.typeError } := by
        unfold classifyClose; simp [hx, hcl]
      rw [he]
      exact ⟨fun hn => h.1 hn, fun p hp hb => h.2 p hp hb⟩
    · by_cases hw : (s.inputState == InState.waiting) = true
      · by_cases hid : (idempotentMethods.contains s.method) = true
        · have hid' : s.method ∈ idempotentMethods := by simpa using hid
          by_cases hlt : s.retries < s.cfg.retryLimit
          · have he : classifyClose s =
                { s with effects := s.effects ++ [Effect.scheduleRetry (s.cfg.retryDelay / 1000)],
                         pendingRetry := true } := by
              unfold classifyClose; simp [hx, hcl, hw, hid', hlt]
            rw [he]
            exact ⟨fun hn => h.1 hn, fun p hp hb => h.2 p hp hb⟩
          · have he : classifyClose s = inputError (Err.connectError
                ("Tried to connect " ++ toString (s.retries + 1) ++ " times.")) s := by
              unfold classifyClose; simp [hx, hcl, hw, hid', hlt]
            rw [he]; exact invA_inputError _ s h
        · have hid' : s.method ∉ idempotentMethods := by simpa using hid
          have he : classifyClose s = inputError
              (Err.connectError ("Can't retry " ++ s.method ++ " method")) s := by
            unfold classifyClose; simp [hx, hcl, hw, hid']
          rw [he]; exact invA_inputError _ s h
      · have he : classifyClose s = inputError (Err.connectError
            "Server dropped connection before the response was complete.") s := by
          unfold classifyClose; simp [hx, hcl, hw]
        rw [he]; exact invA_inputError _ s h

theorem invA_connClosed (s : St) (h : InvA s) : InvA (connClosed s) := by
  by_cases hx : s.exc.isSome = true
  · rw [connClosed_of_exc s hx]; exact h
  · by_cases hc : (clearReadTimeout s).exc.isSome = true
    · have he : connClosed s = clearReadTimeout s := by unfold connClosed; simp [hx, hc]
      rw [he]; exact invA_clearReadTimeout s h
    · have h1 : InvA (clearReadTimeout s) := invA_clearReadTimeout s h
      by_cases hb : ((clearReadTimeout s).inputBuffer != "") = true
      · have he : connClosed s = classifyClose (handleInputFlush (clearReadTimeout s)) := by
          unfold connClosed; simp [hx, hc, hb]
        rw [he]
        exact invA_classifyClose _ (invA_handleInputFlush _ h1)
      · have he : connClosed s = classifyClose (clearReadTimeout s) := by
          unfold connClosed; simp [hx, hc, hb]
        rw [he]; exact invA_classifyClose _ h1

/-- One step preserves the armed-emission invariant, in every run. -/
theorem step_invA {insp : Bool} {s s1 : St} (hs : Step insp s s1) (h : InvA s) :
    InvA s1 := by
  cases hs with
  | connect c s hx hw => exact invA_handleConnect c s h
  | connectError d s hx hw => exact invA_inputError _ s h
  | start tl hd tk codes cl s hx hw ht => exact invA_stepStartPost tl hd tk codes cl s h
  | body chunk s hx hb => exact invA_inputBody chunk s h
  | endMsg trailers s hx hb => exact invA_inputEnd trailers s h
  | parseError e s hx hw => exact invA_inputError e s h
  | closed c s hx ht =>
    refine invA_connClosed _ ?_
    exact ⟨fun hn => h.1 hn, fun p hp hb => h.2 p hp hb⟩
  | timerFire kind s hx ha =>
    refine invA_inputError _ _ ?_
    refine ⟨?_, fun p hp hb => h.2 p hp hb⟩
    intro hn
    exfalso
    have hev : s.readTimeoutEv = none := h.1 hn
    have ha2 : (s.readTimeoutEv == some true) = true := ha
    rw [hev] at ha2
    simp at ha2
  | retryFire s hx hp =>
    refine invA_retryFn _ ?_
    exact ⟨fun hn => h.1 hn, fun p hp2 hb => h.2 p hp2 hb⟩
  | setInspect s hi hx =>
    exact ⟨fun hn => h.1 hn, fun p hp hb => h.2 p hp hb⟩

theorem initSt_invA (cfg : Config) (m hH : String) (p : Int) :
    InvA (initSt cfg m hH p) := by
  constructor
  · intro _
    rfl
  · intro q hq
    simp [initSt] at hq

/-- Every reachable state — in every run, inspecting or not — satisfies the
armed-emission invariant. -/
theorem reach_invA {insp : Bool} {cfg : Config} {m hH : String} {p : Int} {s : St}
    (h : Reach insp cfg m hH p s) : InvA s := by
  induction h with
  | refl => exact initSt_invA cfg m hH p
  | tail _ hstep ih => exact step_invA hstep ih

/-! ## Further supporting lemmas for the claim theorems -/

theorem clearReadTimeout_obs2 (s : St) :
    (clearReadTimeout s).effects = s.effects ∧
    (clearReadTimeout s).method = s.method ∧
    (clearReadTimeout s).retries = s.retries ∧
    (clearReadTimeout s).pendingRetry = s.pendingRetry ∧
    (clearReadTimeout s).resVersion = s.resVersion := by
  unfold clearReadTimeout
  by_cases hx : s.exc.isSome = true
  · simp [hx]
  · simp only [hx, Bool.false_eq_true, if_false]
    cases s.cfg.readTimeout with
    | none => simp
    | some _ => cases s.readTimeoutEv <;> simp

theorem poolGet_poolSet (p : Pool) (k : String × Int) (l : List Conn) :
    poolGet (poolSet p k l) k = some l := by
  induction p with
  | nil => simp [poolSet, poolGet]
  | cons e rest ih =>
    by_cases he : (e.1 == k) = true
    · simp [poolSet, he, poolGet]
    · simp only [poolSet, he, Bool.false_eq_true, if_false]
      have he2 : (e.1 == k) = false := by simpa using he
      simp only [poolGet, List.find?, he2] at ih ⊢
      exact ih

/-! ## Claim C4 -/

/-- A fresh exchange in `WAITING` over the default configuration, with the
server having closed the freshly bound connection. -/
def c4State : St :=
  { cfg := {}, method := "GET", host := "h", port := 80,
    tcpConn := some { host := "h", port := 80, connected := false } }

/-- Claim C4 (code bug).  Under the default configuration
(`retry_delay = 500`, commented "in ms"), an eligible premature close
schedules the retry with `500 / 1000` seconds of delay — which is `0`
under Python 2 integer division, not the 0.5 s the spec and the code's own
comment intend. -/
theorem thor_c4_retry_scheduled_with_zero_delay :
    ({} : Config).retryDelay = 500 ∧
    (connClosed c4State).effects = [Effect.scheduleRetry (500 / 1000)] ∧
    (500 : Nat) / 1000 = 0 ∧
    (connClosed c4State).pendingRetry = true := by
  exact ⟨rfl, rfl, rfl, rfl⟩

/-! ## Claim C6 -/

/-- A non-HTTP request URI. -/
def c6Uri : Uri :=
  { scheme := "ftp", authority := "h", path := "/", query := "", fragment := "" }

/-- A fresh exchange whose client has `read_timeout` configured. -/
def c6StateRT : St := { cfg := { readTimeout := some 1 } }

/-- A fresh exchange with the default configuration (`read_timeout = None`). -/
def c6StateNoRT : St := { cfg := {} }

/-- Claim C6 (code bug).  With `read_timeout` unset, `request_start` on a
non-HTTP URL synchronously emits `error(UrlError)` and attaches no
connection — but with `read_timeout` configured, `_clear_read_timeout`
calls `.delete()` on the still-`None` timer handle, so `request_start`
dies with `AttributeError` before emitting anything. -/
theorem thor_c6_url_error_crashes_with_read_timeout :
    ((requestStart "GET" c6Uri [] c6StateRT).exc = some PyExc.attributeError ∧
     (requestStart "GET" c6Uri [] c6StateRT).trace = [] ∧
     (requestStart "GET" c6Uri [] c6StateRT).effects = []) ∧
    ((requestStart "GET" c6Uri [] c6StateNoRT).exc = none ∧
     (requestStart "GET" c6Uri [] c6StateNoRT).events =
       [Event.error (Err.urlError "Only HTTP URLs are supported")] ∧
     (requestStart "GET" c6Uri [] c6StateNoRT).effects = []) := by
  exact ⟨⟨rfl, rfl, rfl⟩, ⟨rfl, rfl, rfl⟩⟩

/-! ## Claim C7 -/

/-- A well-formed request URI. -/
def c7Uri : Uri :=
  { scheme := "http", authority := "h", path := "/", query := "", fragment := "" }

/-- A fresh exchange with the default configuration. -/
def c7State : St := { cfg := {} }

/-- Claim C7, counterexample.  A request with `Content-Length: -5` — whose
first value parses as the *negative* integer −5 under Python `int()` — is
framed `COUNTED` with length −5, not `NOBODY` as the claim requires for a
negative `Content-Length`. -/
theorem thor_c7_counterexample :
    (requestStart "POST" c7Uri [("Content-Length", "-5")] c7State).effects =
      [Effect.outputStart "POST / HTTP/1.1"
        [("Content-Length", "-5"), ("Host", "h"), ("Connection", "keep-alive")]
        Delimit.counted (some (-5)),
       Effect.attach "h" 80] ∧
    ((-5 : Int) < 0) := by
  exact ⟨rfl, by decide⟩

/-- Claim C7, amended.  The outbound framing is `COUNTED` with length `n`
exactly when the first `Content-Length` value parses as an integer `n`
under Python `int()` — including negative values; in every other case
(absent or malformed) the framing is `NOBODY`. -/
theorem thor_c7_amended (hdrs : Hdrs) (n : Int) :
    chooseDelimit hdrs = (Delimit.counted, some n) ↔
      ∃ v rest, getHeader hdrs "content-length" = v :: rest ∧ pyInt v = some n := by
  cases hg : getHeader hdrs "content-length" with
  | nil =>
    have hch : chooseDelimit hdrs = (Delimit.nobody, none) := by
      simp only [chooseDelimit, hg]
    rw [hch]
    constructor
    · intro h; simp at h
    · rintro ⟨v, rest, hvr, _⟩
      simp at hvr
  | cons v rest =>
    cases hp : pyInt v with
    | none =>
      have hch : chooseDelimit hdrs = (Delimit.nobody, none) := by
        simp only [chooseDelimit, hg, hp]
      rw [hch]
      constructor
      · intro h; simp at h
      · rintro ⟨v2, rest2, hvr, hp2⟩
        injection hvr with h1 _
        rw [h1] at hp
        rw [hp] at hp2
        cases hp2
    | some m =>
      have hch : chooseDelimit hdrs = (Delimit.counted, some m) := by
        simp only [chooseDelimit, hg, hp]
      rw [hch]
      constructor
      · intro h
        injection h with _ h2
        injection h2 with h3
        exact ⟨v, rest, rfl, by rw [hp, h3]⟩
      · rintro ⟨v2, rest2, hvr, hp2⟩
        injection hvr with h1 _
        rw [h1] at hp
        rw [hp] at hp2
        injection hp2 with hmn
        rw [hmn]

/-! ## Claim C9 -/

/-- An idle-able connection whose host is spelled `"Host"`. -/
def c9Conn : Conn := { host := "Host", port := 80, connected := true }

/-- Claim C9, counterexample.  A connection released under `("Host", 80)`
is *not* found by an attach under `("host", 80)` — the pool's dict key
compares hosts case-sensitively — although the same attach under the
identical spelling finds it. -/
theorem thor_c9_counterexample :
    pyLower "Host" = pyLower "host" ∧
    (attachConn (releaseConn [] c9Conn) "host" 80).2 = AttachResult.fresh ∧
    (attachConn (releaseConn [] c9Conn) "Host" 80).2 = AttachResult.reused c9Conn := by
  exact ⟨rfl, rfl, rfl⟩

/-- Claim C9, amended.  The pool key compares hosts by exact string
equality (and ports exactly): a connected connection released under its own
`(host, port)` is found by the next attach under the *identical* key. -/
theorem thor_c9_amended (p : Pool) (c : Conn) (h : String) (pt : Int)
    (hc : c.connected = true) (hh : c.host = h) (hp : c.port = pt) :
    (attachConn (releaseConn p c) h pt).2 = AttachResult.reused c := by
  subst hh
  subst hp
  cases hg : poolGet p (c.host, c.port) with
  | none =>
    have hrel : releaseConn p c = poolSet p (c.host, c.port) [c] := by
      unfold releaseConn
      simp only [hc, if_true, hg]
    have hat : attachConn (releaseConn p c) c.host c.port =
        (poolSet (releaseConn p c) (c.host, c.port) (attachLoop [c].reverse).1.reverse,
         (attachLoop [c].reverse).2) := by
      unfold attachConn
      rw [hrel, poolGet_poolSet]
    rw [hat]
    have hloop : attachLoop [c].reverse = ([], AttachResult.reused c) := by
      simp [attachLoop, hc]
    rw [hloop]
  | some l =>
    have hrel : releaseConn p c = poolSet p (c.host, c.port) (l ++ [c]) := by
      unfold releaseConn
      simp only [hc, if_true, hg]
    have hat : attachConn (releaseConn p c) c.host c.port =
        (poolSet (releaseConn p c) (c.host, c.port) (attachLoop (l ++ [c]).reverse).1.reverse,
         (attachLoop (l ++ [c]).reverse).2) := by
      unfold attachConn
      rw [hrel, poolGet_poolSet]
    rw [hat]
    have hrev : (l ++ [c]).reverse = c :: l.reverse := by simp
    have hloop : attachLoop (l ++ [c]).reverse = (l.reverse, AttachResult.reused c) := by
      rw [hrev]
      simp [attachLoop, hc]
    rw [hloop]

/-- Claim C9, witness for the amended theorem. -/
theorem thor_c9_amended_witness :
    (attachConn (releaseConn [] { host := "h", port := 80, connected := true })
      "h" 80).2 = AttachResult.reused { host := "h", port := 80, connected := true } := by
  exact thor_c9_amended [] { host := "h", port := 80, connected := true } "h" 80 rfl rfl rfl

/-! ## Claim C10 -/

/-- A mid-body exchange whose input buffer still holds the complete
remainder of a `COUNTED` response when the connection closes. -/
def c10State : St :=
  { cfg := {}, method := "GET", host := "h", port := 80,
    inputState := InState.body, inputDelimit := Delimit.counted,
    bodyLeft := 5, inputBuffer := "hello",
    tcpConn := some { host := "h", port := 80, connected := false },
    trace := [(Event.responseStart "200" "OK" [], false)] }

/-- Claim C10, counterexample.  On close with a buffered complete response,
the response *is* delivered (`response_done` is emitted), but the close is
still classified afterwards: the dropped-connection `ConnectError` is
*also* emitted, contradicting "rather than reported as a dropped
connection". -/
theorem thor_c10_counterexample :
    c10State.inputBuffer ≠ "" ∧
    Event.responseDone [] ∈ (connClosed c10State).events ∧
    Event.error (Err.connectError
      "Server dropped connection before the response was complete.")
      ∈ (connClosed c10State).events := by
  refine ⟨by decide, ?_, ?_⟩ <;>
    · rw [show (connClosed c10State).events =
          [Event.responseStart "200" "OK" [], Event.responseBody "hello",
           Event.responseDone [],
           Event.error (Err.connectError
             "Server dropped connection before the response was complete.")] from rfl]
      simp

/-- Claim C10, amended.  When the connection closes with unparsed buffered
bytes, `_conn_closed` feeds them to the parser first, so a fully received
response is delivered (`response_done` precedes any close classification);
the classification nonetheless still runs afterwards and additionally
emits `error(ConnectError("Server dropped connection before the response
was complete."))`. -/
theorem thor_c10_amended :
    (∀ s : St, s.exc = none → (clearReadTimeout s).exc = none → s.inputBuffer ≠ "" →
      connClosed s = classifyClose (handleInputFlush (clearReadTimeout s))) ∧
    (connClosed c10State).events = c10State.events ++
      [Event.responseBody "hello", Event.responseDone [],
       Event.error (Err.connectError
         "Server dropped connection before the response was complete.")] := by
  constructor
  · intro s hx hcn hb
    have hc : ¬((clearReadTimeout s).exc.isSome = true) := by
      rw [hcn]; simp
    have hb2 : ((clearReadTimeout s).inputBuffer != "") = true := by
      rw [(clearReadTimeout_obs s).2.2.2.1]
      simpa using hb
    unfold connClosed
    simp [hx, hc, hb2]
  · rfl

/-- Claim C10, witness for the amended theorem. -/
theorem thor_c10_amended_witness :
    connClosed c10State = classifyClose (handleInputFlush (clearReadTimeout c10State)) := by
  exact thor_c10_amended.1 c10State rfl rfl (by decide)

/-! ## Claim C1 -/

/-- A concrete mid-body CLOSE-delimited exchange at connection close:
`response_start` has been emitted, the body is being read with delimiter
`CLOSE`, and the peer has just closed the connection. -/
def c1State : St :=
  { cfg := {}, method := "GET", host := "h", port := 80,
    inputState := InState.body, inputDelimit := Delimit.close,
    tcpConn := some { host := "h", port := 80, connected := false },
    trace := [(Event.responseStart "200" "OK" [], false)] }

/-- Claim C1 (code bug).  The claim — following the spec — says a TCP close
on a `CLOSE`-delimited exchange is treated as legitimate body end:
`_conn_closed` calls `input_end`, `response_done` (not `error`) is emitted
and the connection is disposed of.  The code cannot do this: `client.py`
line 227 calls `self.input_end()` with no argument, but `input_end` (line
305) is declared `def input_end(self, trailers)`, so the call raises
`TypeError: input_end() takes exactly 2 arguments (1 given)` before
`input_end`'s body runs.  At the concrete mid-body `CLOSE`-delimited state
`c1State`, `_conn_closed` escapes with that `TypeError`, emits no event at
all (neither `response_done` nor `error`), and does not dispose of the
connection (`tcp_conn` still holds the dead connection object). -/
theorem thor_c1_close_delimited_crash :
    c1State.inputDelimit = Delimit.close ∧
    (connClosed c1State).exc = some PyExc.typeError ∧
    (connClosed c1State).events = c1State.events ∧
    (connClosed c1State).tcpConn = c1State.tcpConn ∧
    c1State.tcpConn ≠ none := by
  refine ⟨rfl, by decide, by decide, by decide, by simp [c1State]⟩

/-! ## Claim C5 -/

/-- A fresh exchange bound to a live connection, default configuration. -/
def c5State : St :=
  { cfg := {}, method := "GET", host := "h", port := 80,
    tcpConn := some { host := "h", port := 80, connected := true } }

/-- The exchange after the parser completes the headers of an
`HTTP/1.1 200 OK` response carrying no `Connection` tokens, no
`Content-Length` and no `Transfer-Encoding`. -/
def c5Res : St := stepStartPost "HTTP/1.1 200 OK" [("a", "b")] [] [] none c5State

/-- Claim C5, counterexample.  An `HTTP/1.1 200 OK` response with no
`Connection` tokens, no `Content-Length` and no chunked coding makes
`conn_reusable = true` (first half of the claim) while its body delimiter
is `CLOSE` — refuting "conn_reusable = true implies the response was not
CLOSE-delimited". -/
theorem thor_c5_counterexample :
    c5Res.connReusable = true ∧ c5Res.inputDelimit = Delimit.close := by
  exact ⟨rfl, rfl⟩

/-- Claim C5, amended.  First half unchanged: on a successful
`input_start`, `conn_reusable` is set to true iff `close` is not among the
connection tokens and (the parsed version is `1.1`, or `keep-alive` is
among the tokens).  Second half dropped: `conn_reusable = true` does not
preclude a `CLOSE` delimiter — an `HTTP/1.1` response with no
`Content-Length` and no chunked coding is `CLOSE`-delimited yet marked
reusable (the counterexample), and `input_start` never consults the
delimiter when setting the flag. -/
theorem thor_c5_amended :
    ∀ (tl : String) (hd : Hdrs) (tk : List String) (s s1 : St) (al : Bool),
      s.exc = none → s.connReusable = false →
      inputStart tl hd tk s = (s1, al) → s1.exc = none →
      (s1.connReusable = true ↔
        ("close" ∉ tk ∧ (s1.resVersion = some "1.1" ∨ "keep-alive" ∈ tk))) := by
  · intro tl hd tk s s1 al hx hcr0 hsa hx1
    obtain ⟨o1, o2, o3, o4, o5, o6, o7, o8⟩ := clearReadTimeout_obs s
    by_cases hc : (clearReadTimeout s).exc.isSome = true
    · exfalso
      have hres : (inputStart tl hd tk s).1 = clearReadTimeout s := by
        unfold inputStart
        simp [hx, hc]
      rw [hsa] at hres
      have : s1.exc.isSome = true := by
        rw [show s1 = clearReadTimeout s from hres]
        exact hc
      rw [hx1] at this
      simp at this
    · have hbadVE : ∀ (e : Err) (t : St),
          (inputStart tl hd tk s).1 = raiseVE (inputError e t) → False := by
        intro e t hres
        rw [hsa] at hres
        have : s1.exc = some PyExc.valueError := by
          rw [show s1 = raiseVE (inputError e t) from hres]
          rfl
        rw [hx1] at this
        cases this
      rcases htl : pySplitWs1 tl with _ | ⟨pv, _ | ⟨st2, _ | ⟨x3, xs3⟩⟩⟩
      · exact (hbadVE (Err.httpVersionError tl) (clearReadTimeout s)
          (by unfold inputStart; simp [hx, hc, htl])).elim
      · exact (hbadVE (Err.httpVersionError tl) (clearReadTimeout s)
          (by unfold inputStart; simp [hx, hc, htl])).elim
      · rcases hpv : pyRsplit1 '/' pv with _ | ⟨proto, _ | ⟨ver, _ | ⟨y3, ys3⟩⟩⟩
        · exact (hbadVE (Err.httpVersionError tl) (clearReadTimeout s)
            (by unfold inputStart; simp [hx, hc, htl, hpv])).elim
        · exact (hbadVE (Err.httpVersionError tl) (clearReadTimeout s)
            (by unfold inputStart; simp [hx, hc, htl, hpv])).elim
        · by_cases hbad : (proto != "HTTP" || (ver != "1.0" && ver != "1.1")) = true
          · exact (hbadVE (Err.httpVersionError pv)
              { clearReadTimeout s with resVersion := some ver }
              (by unfold inputStart; simp [hx, hc, htl, hpv, hbad])).elim
          · have hver : ver = "1.0" ∨ ver = "1.1" := by
              simp only [Bool.or_eq_true, bne_iff_ne, ne_eq, Bool.and_eq_true] at hbad
              rcases not_or.mp hbad with ⟨_, hv⟩
              by_cases h10 : ver = "1.0"
              · exact Or.inl h10
              · refine Or.inr ?_
                by_contra h11
                exact hv ⟨h10, h11⟩
            by_cases hru : "close" ∉ tk ∧ ((ver = "1.0" ∧ "keep-alive" ∈ tk) ∨ ver = "1.1")
            · -- reuse condition holds: conn_reusable set to true
              have hres : ∃ code ph, (inputStart tl hd tk s).1 =
                  emitEv (Event.responseStart code ph hd)
                    (setReadTimeout { clearReadTimeout s with
                        resVersion := some ver, connReusable := true }) := by
                rcases hst : pySplitWs1 st2 with _ | ⟨c0, _ | ⟨p0, _ | ⟨z3, zs3⟩⟩⟩
                · exact ⟨pyRstrip st2, "", by unfold inputStart; simp [hx, hc, htl, hpv, hbad, hru, hst]⟩
                · exact ⟨pyRstrip st2, "", by unfold inputStart; simp [hx, hc, htl, hpv, hbad, hru, hst]⟩
                · exact ⟨c0, p0, by unfold inputStart; simp [hx, hc, htl, hpv, hbad, hru, hst]⟩
                · exact ⟨pyRstrip st2, "", by unfold inputStart; simp [hx, hc, htl, hpv, hbad, hru, hst]⟩
              obtain ⟨code, ph, hres⟩ := hres
              rw [hsa] at hres
              have hcru : s1.connReusable = true := by
                rw [show s1 = _ from hres]
                show (setReadTimeout _).connReusable = true
                rw [(setReadTimeout_obs _).2.2.2.2.2.2.1]
              have hver1 : s1.resVersion = some ver := by
                rw [show s1 = _ from hres]
                show (setReadTimeout _).resVersion = some ver
                rw [(setReadTimeout_obs _).2.2.2.2.2.2.2.2.2]
              constructor
              · intro _
                refine ⟨hru.1, ?_⟩
                rcases hru.2 with ⟨h10, hka⟩ | h11
                · exact Or.inr hka
                · rw [hver1, h11]
                  exact Or.inl rfl
              · intro _
                exact hcru
            · -- reuse condition fails: conn_reusable stays false
              have hres : ∃ code ph, (inputStart tl hd tk s).1 =
                  emitEv (Event.responseStart code ph hd)
                    (setReadTimeout { clearReadTimeout s with
                        resVersion := some ver,
                        connReusable := (clearReadTimeout s).connReusable }) := by
                rcases hst : pySplitWs1 st2 with _ | ⟨c0, _ | ⟨p0, _ | ⟨z3, zs3⟩⟩⟩
                · exact ⟨pyRstrip st2, "", by unfold inputStart; simp [hx, hc, htl, hpv, hbad, hru, hst]⟩
                · exact ⟨pyRstrip st2, "", by unfold inputStart; simp [hx, hc, htl, hpv, hbad, hru, hst]⟩
                · exact ⟨c0, p0, by unfold inputStart; simp [hx, hc, htl, hpv, hbad, hru, hst]⟩
                · exact ⟨pyRstrip st2, "", by unfold inputStart; simp [hx, hc, htl, hpv, hbad, hru, hst]⟩
              obtain ⟨code, ph, hres⟩ := hres
              rw [hsa] at hres
              have hcru : s1.connReusable = false := by
                rw [show s1 = _ from hres]
                show (setReadTimeout _).connReusable = false
                rw [(setReadTimeout_obs _).2.2.2.2.2.2.1]
                show (clearReadTimeout s).connReusable = false
                rw [o7]
                exact hcr0
              have hver1 : s1.resVersion = some ver := by
                rw [show s1 = _ from hres]
                show (setReadTimeout _).resVersion = some ver
                rw [(setReadTimeout_obs _).2.2.2.2.2.2.2.2.2]
              constructor
              · intro hcontra
                rw [hcru] at hcontra
                cases hcontra
              · rintro ⟨hncl, hor⟩
                exfalso
                apply hru
                refine ⟨hncl, ?_⟩
                rcases hor with hvv | hka
                · rw [hver1] at hvv
                  injection hvv with hvv2
                  exact Or.inr hvv2
                · rcases hver with h10 | h11
                  · exact Or.inl ⟨h10, hka⟩
                  · exact Or.inr h11
        · exact (hbadVE (Err.httpVersionError tl) (clearReadTimeout s)
            (by unfold inputStart; simp [hx, hc, htl, hpv])).elim
      · exact (hbadVE (Err.httpVersionError tl) (clearReadTimeout s)
          (by unfold inputStart; simp [hx, hc, htl])).elim

/-- A fresh exchange with the default configuration, reusable flag unset. -/
def c5WState : St := { cfg := {}, method := "GET" }

/-- Claim C5, witness for the amended theorem. -/
theorem thor_c5_witness :
    ((inputStart "HTTP/1.1 200 OK" [] ["keep-alive"] c5WState).1.connReusable = true ↔
      ("close" ∉ (["keep-alive"] : List String) ∧
        ((inputStart "HTTP/1.1 200 OK" [] ["keep-alive"] c5WState).1.resVersion = some "1.1" ∨
          "keep-alive" ∈ (["keep-alive"] : List String)))) := by
  exact thor_c5_amended "HTTP/1.1 200 OK" [] ["keep-alive"] c5WState
    (inputStart "HTTP/1.1 200 OK" [] ["keep-alive"] c5WState).1
    (inputStart "HTTP/1.1 200 OK" [] ["keep-alive"] c5WState).2
    rfl rfl rfl rfl

/-! ## Claim C2 -/

/-- Claim C2, amended.  In every run in which the parser never sets its
`inspecting` flag, the emitted events are totally ordered: at most one
`response_start` first, then only `response_body`s, and at most one
terminal event (`response_done` or `error`), which comes last; an exchange
that reaches the `DONE` or `ERROR` state has emitted exactly one terminal
event.  The claimed unconditional "exactly one terminal event" is weakened
to "at most one" because a `CLOSE`-delimited exchange dies with a
`TypeError` at connection close (`client.py` 227 calls `input_end` with no
`trailers` argument — claim C1) and so never emits any terminal event. -/
theorem thor_c2_amended (cfg : Config) (m hH : String) (p : Int) (s : St)
    (h : Reach false cfg m hH p s) :
    orderOk s.events = true ∧
    ((s.inputState = InState.done ∨ s.inputState = InState.errorSt) →
      endsOneTerminal s.events = true) := by
  obtain ⟨hb, hi, hrt, hsh, hao⟩ := reach_inv h
  constructor
  · cases hst : s.inputState with
    | waiting =>
      rw [(hsh.1 hst).1]
      rfl
    | body => exact orderOk_of_startBodies _ (hsh.2.1 hst)
    | done =>
      obtain ⟨es, t, heq, hsb⟩ := hsh.2.2.1 hst
      rw [heq]
      exact orderOk_startBodies_term es _ hsb rfl
    | errorSt =>
      obtain ⟨es, e, heq, hpre⟩ := hsh.2.2.2.1 hst
      rw [heq]
      rcases hpre with hpre | hpre
      · rw [hpre]
        rfl
      · exact orderOk_startBodies_term es _ hpre rfl
  · intro hterm
    rcases hterm with hst | hst
    · obtain ⟨es, t, heq, hsb⟩ := hsh.2.2.1 hst
      rw [heq]
      exact endsOneTerminal_nonterm_pre es _ (startBodies_no_terminal es hsb) rfl
    · obtain ⟨es, e, heq, hpre⟩ := hsh.2.2.2.1 hst
      rw [heq]
      rcases hpre with hpre | hpre
      · rw [hpre]
        rfl
      · exact endsOneTerminal_nonterm_pre es _ (startBodies_no_terminal es hpre) rfl

/-- Scenario for the C2 counterexample: connect, headers in, parser sets
`inspecting`, a parse error is reported, then the body completes. -/
def c2s1 : St :=
  handleConnect { host := "h", port := 80, connected := true } (initSt {} "GET" "h" 80)

/-- Headers of `HTTP/1.1 200 OK` parsed, counted body of 5 bytes ahead. -/
def c2s2 : St := stepStartPost "HTTP/1.1 200 OK" [] [] [] (some 5) c2s1

/-- The parser switches to inspecting mode. -/
def c2s3 : St := { c2s2 with inspecting := true }

/-- `input_error` runs while inspecting: `error` is emitted anyway. -/
def c2s4 : St := inputError (Err.chunkError "bad chunk") c2s3

/-- The parser then finishes the body: `input_end` emits `response_done`. -/
def c2s5 : St := inputEnd [] c2s4

/-- Claim C2, counterexample.  When `input_error` runs while the parser is
inspecting, the exchange emits `error` and keeps reading; the subsequent
`input_end` emits `response_done` *after* the `error` — a reachable trace
`response_start, error, response_done` refuting the claimed order. -/
theorem thor_c2_counterexample :
    Reach true {} "GET" "h" 80 c2s5 ∧
    c2s5.events = [Event.responseStart "200" "OK" [],
      Event.error (Err.chunkError "bad chunk"), Event.responseDone []] := by
  constructor
  · exact Reach.tail (Reach.tail (Reach.tail (Reach.tail (Reach.tail Reach.refl
      (Step.connect { host := "h", port := 80, connected := true } _ rfl rfl))
      (Step.start "HTTP/1.1 200 OK" [] [] [] (some 5) c2s1 rfl rfl rfl))
      (Step.setInspect c2s2 rfl rfl))
      (Step.parseError (Err.chunkError "bad chunk") c2s3 rfl (Or.inr rfl)))
      (Step.endMsg [] c2s4 rfl rfl)
  · rfl

/-- Claim C2, witness for the amended theorem. -/
theorem thor_c2_witness :
    orderOk (initSt {} "GET" "h" 80).events = true ∧
    (((initSt {} "GET" "h" 80).inputState = InState.done ∨
      (initSt {} "GET" "h" 80).inputState = InState.errorSt) →
      endsOneTerminal (initSt {} "GET" "h" 80).events = true) := by
  exact thor_c2_amended {} "GET" "h" 80 (initSt {} "GET" "h" 80) Reach.refl

/-! ## Claim C3 -/

/-- The failing-thrice scenario: first connect succeeds then closes. -/
def c3s1 : St :=
  handleConnect { host := "h", port := 80, connected := true } (initSt {} "GET" "h" 80)

/-- First close in `WAITING`: a retry is scheduled. -/
def c3s2 : St :=
  connClosed { c3s1 with tcpConn := some { host := "h", port := 80, connected := false } }

/-- First retry fires: second attach. -/
def c3s3 : St := retryFn { c3s2 with pendingRetry := false }

/-- Second connect. -/
def c3s4 : St := handleConnect { host := "h", port := 80, connected := true } c3s3

/-- Second close: another retry scheduled. -/
def c3s5 : St :=
  connClosed { c3s4 with tcpConn := some { host := "h", port := 80, connected := false } }

/-- Second retry fires: third attach. -/
def c3s6 : St := retryFn { c3s5 with pendingRetry := false }

/-- Third connect. -/
def c3s7 : St := handleConnect { host := "h", port := 80, connected := true } c3s6

/-- Third close: the budget is exhausted, the final error is emitted. -/
def c3s8 : St :=
  connClosed { c3s7 with tcpConn := some { host := "h", port := 80, connected := false } }

/-- Claim C3 (confirmed).  (1) `_conn_closed` schedules a retry only when
the input state is `WAITING`, the method is idempotent, and the retry
count is below `retry_limit`.  (2) In every run the number of connect
attempts (pool attaches) is at most `retry_limit + 1`.  (3) In the
three-failures scenario under the default `retry_limit = 2`, the final and
only event is `error(ConnectError("Tried to connect 3 times."))` after
exactly three connect attempts. -/
theorem thor_c3_retry_budget :
    (∀ s : St, s.exc = none → s.pendingRetry = false → s.inputBuffer = "" →
      (connClosed s).pendingRetry = true →
      s.inputState = InState.waiting ∧ s.method ∈ idempotentMethods ∧
        s.retries < s.cfg.retryLimit) ∧
    (∀ (insp : Bool) (cfg : Config) (m hH : String) (p : Int) (s : St),
      Reach insp cfg m hH p s → countAttach s.effects ≤ s.cfg.retryLimit + 1) ∧
    (c3s8.events = [Event.error (Err.connectError "Tried to connect 3 times.")] ∧
     countAttach c3s8.effects = 3 ∧ ({} : Config).retryLimit = 2 ∧
     Reach false {} "GET" "h" 80 c3s8) := by
  refine ⟨?_, ?_, ?_, ?_, rfl, ?_⟩
  · intro s hx hp hb hpr
    obtain ⟨o1, o2, o3, o4, o5, o6, o7, o8⟩ := clearReadTimeout_obs s
    obtain ⟨p1, p2, p3, p4, p5⟩ := clearReadTimeout_obs2 s
    by_cases hc : (clearReadTimeout s).exc.isSome = true
    · exfalso
      have he : connClosed s = clearReadTimeout s := by
        unfold connClosed
        simp [hx, hc]
      rw [he, p4, hp] at hpr
      cases hpr
    · have hcn : (clearReadTimeout s).exc = none := by
        cases hh : (clearReadTimeout s).exc with
        | none => rfl
        | some _ => simp [hh] at hc
      have hb2 : ((clearReadTimeout s).inputBuffer != "") = false := by
        rw [o4, hb]
        rfl
      have he : connClosed s = classifyClose (clearReadTimeout s) := by
        unfold connClosed
        simp [hx, hc, hb2]
      rw [he] at hpr
      by_cases hcl : ((clearReadTimeout s).inputDelimit == Delimit.close) = true
      · exfalso
        have he2 : classifyClose (clearReadTimeout s) =
            { clearReadTimeout s with exc := some PyExc.typeError } := by
          unfold classifyClose
          simp [hc, hcl]
        rw [he2] at hpr
        have hpr2 : (clearReadTimeout s).pendingRetry = true := hpr
        rw [p4, hp] at hpr2
        cases hpr2
      · by_cases hw : ((clearReadTimeout s).inputState == InState.waiting) = true
        · by_cases hid : (idempotentMethods.contains (clearReadTimeout s).method) = true
          · by_cases hlt : (clearReadTimeout s).retries < (clearReadTimeout s).cfg.retryLimit
            · refine ⟨?_, ?_, ?_⟩
              · have hw2 : (clearReadTimeout s).inputState = InState.waiting := by simpa using hw
                rw [o2] at hw2
                exact hw2
              · have hid2 : (clearReadTimeout s).method ∈ idempotentMethods := by simpa using hid
                rw [p2] at hid2
                exact hid2
              · rw [p3, o8] at hlt
                exact hlt
            · exfalso
              have hid2 : (clearReadTimeout s).method ∈ idempotentMethods := by simpa using hid
              have he2 : classifyClose (clearReadTimeout s) =
                  inputError (Err.connectError ("Tried to connect "
                    ++ toString ((clearReadTimeout s).retries + 1) ++ " times."))
                    (clearReadTimeout s) := by
                unfold classifyClose
                simp [hc, hcl, hw, hid2, hlt]
              rw [he2, (inputError_retryNeutral _ (clearReadTimeout s)).2.1, p4, hp] at hpr
              cases hpr
          · exfalso
            have hid2 : (clearReadTimeout s).method ∉ idempotentMethods := by simpa using hid
            have he2 : classifyClose (clearReadTimeout s) =
                inputError (Err.connectError ("Can't retry "
                  ++ (clearReadTimeout s).method ++ " method")) (clearReadTimeout s) := by
              unfold classifyClose
              simp [hc, hcl, hw, hid2]
            rw [he2, (inputError_retryNeutral _ (clearReadTimeout s)).2.1, p4, hp] at hpr
            cases hpr
        · exfalso
          have he2 : classifyClose (clearReadTimeout s) =
              inputError (Err.connectError
                "Server dropped connection before the response was complete.")
                (clearReadTimeout s) := by
            unfold classifyClose
            simp [hc, hcl, hw]
          rw [he2, (inputError_retryNeutral _ (clearReadTimeout s)).2.1, p4, hp] at hpr
          cases hpr
  · intro insp cfg m hH p s h
    obtain ⟨i1, i2, _⟩ := reach_invR h
    rw [i1]
    exact Nat.succ_le_succ i2
  · rfl
  · rfl
  · exact Reach.tail (Reach.tail (Reach.tail (Reach.tail (Reach.tail (Reach.tail
      (Reach.tail (Reach.tail Reach.refl
      (Step.connect { host := "h", port := 80, connected := true } _ rfl rfl))
      (Step.closed { host := "h", port := 80, connected := true } c3s1 rfl rfl))
      (Step.retryFire c3s2 rfl rfl))
      (Step.connect { host := "h", port := 80, connected := true } c3s3 rfl rfl))
      (Step.closed { host := "h", port := 80, connected := true } c3s4 rfl rfl))
      (Step.retryFire c3s5 rfl rfl))
      (Step.connect { host := "h", port := 80, connected := true } c3s6 rfl rfl))
      (Step.closed { host := "h", port := 80, connected := true } c3s7 rfl rfl)

/-- A concrete eligible retry state: fresh `GET` exchange in `WAITING`,
default configuration, connection just closed. -/
def c3WState : St :=
  { cfg := {}, method := "GET", host := "h", port := 80,
    tcpConn := some { host := "h", port := 80, connected := false } }

/-- Claim C3, witness. -/
theorem thor_c3_witness :
    c3WState.inputState = InState.waiting ∧ c3WState.method ∈ idempotentMethods ∧
      c3WState.retries < c3WState.cfg.retryLimit := by
  exact thor_c3_retry_budget.1 c3WState rfl rfl rfl rfl

/-! ## Claim C8 -/

/-- A client with `read_timeout = 1 s`; exchange after connect. -/
def c8cfg : Config := { readTimeout := some 1 }

/-- The C8 scenario after connect (timer armed, kind `connect`). -/
def c8s1 : St :=
  handleConnect { host := "h", port := 80, connected := true } (initSt c8cfg "GET" "h" 80)

/-- The C8 scenario after `input_start` for `HTTP/1.1 200 OK`. -/
def c8s2 : St := stepStartPost "HTTP/1.1 200 OK" [] [] [] (some 5) c8s1

/-- Claim C8, counterexample.  `input_start` re-arms the read timer with
kind `start` *before* emitting `response_start`, so with `read_timeout`
configured the `response_start` emission happens while a read-timeout
timer is armed — refuting "no user-visible emission ever occurs while a
read-timeout timer is armed". -/
theorem thor_c8_counterexample :
    Reach false c8cfg "GET" "h" 80 c8s2 ∧
    (Event.responseStart "200" "OK" [], true) ∈ c8s2.trace := by
  constructor
  · exact Reach.tail (Reach.tail Reach.refl
      (Step.connect { host := "h", port := 80, connected := true } _ rfl rfl))
      (Step.start "HTTP/1.1 200 OK" [] [] [] (some 5) c8s1 rfl rfl rfl)
  · rw [show c8s2.trace = [(Event.responseStart "200" "OK" [], true)] from rfl]
    exact List.mem_singleton.mpr rfl

/-- Claim C8, amended.  Every parser callback clears the read timer before
emitting, so `response_body` and `response_done` are never emitted while a
read-timeout timer is armed — in every run, whether or not the parser ever
enters inspecting mode.  The only emissions that can occur while a timer
is armed are `response_start` (`input_start` re-arms the `start` timer
just before emitting it, the counterexample) and `error` (`input_error`
while the parser is inspecting skips the clear and still emits). -/
theorem thor_c8_amended (insp : Bool) (cfg : Config) (m hH : String) (p : Int) (s : St)
    (h : Reach insp cfg m hH p s) (pr : Event × Bool) (hmem : pr ∈ s.trace)
    (harm : pr.2 = true) : (isStartEv pr.1 || isErrorEv pr.1) = true := by
  exact (reach_invA h).2 pr hmem harm

/-- Claim C8, witness for the amended theorem. -/
theorem thor_c8_witness :
    (isStartEv (Event.responseStart "200" "OK" []) ||
      isErrorEv (Event.responseStart "200" "OK" [])) = true := by
  exact thor_c8_amended false c8cfg "GET" "h" 80 c8s2
    (Reach.tail (Reach.tail Reach.refl
      (Step.connect { host := "h", port := 80, connected := true } _ rfl rfl))
      (Step.start "HTTP/1.1 200 OK" [] [] [] (some 5) c8s1 rfl rfl rfl))
    (Event.responseStart "200" "OK" [], true)
    (by rw [show c8s2.trace = [(Event.responseStart "200" "OK" [], true)] from rfl]
        exact List.mem_singleton.mpr rfl)
    rfl

end Thor
